import Mathlib

/-! # NU Information Exchange System: the central server (`server.c`)

A shallow embedding of the server's session registry, authentication
handshake, message router, listing responder, heartbeat listener and
operator console.

Conventions of the embedding.

* A C string (the content of a NUL-terminated `char` array, terminator
  excluded) is a `List Char`; one `Char` stands for one byte.
* The global parallel arrays `tcpSockets`, `clientCampus`, `clientDept`,
  `udpAddr`, `lastSeen`, `udpKnown` are functions of the slot index; slots at
  or beyond `clientCount` keep whatever was last written there.
* A lookup that returns an index or `-1` in C returns `some i` or `none`.
* Network effects and lock operations are recorded as a list of `Ev`;
  `printf` logging is not recorded.
* Each critical section of the source is one atomic step.
-/

namespace NUServer

/-! ## Constants -/

def MAX_CLIENTS : Nat := 10
def MAX_NAME : Nat := 40
def MAX_MSG : Nat := 1024

/-- Content of a NUL-terminated `char` array, without the terminator. -/
abbrev CStr := List Char

/-- The byte `'\0'`. -/
def NUL : Char := Char.ofNat 0

/-- The byte `'\n'`. -/
def NL : Char := Char.ofNat 10

/-! ## libc string helpers -/

/-- The C string held by a buffer of `cap` bytes after
`n = read(fd, buf, cap-1); buf[n] = 0` delivered `data` (`n > 0`). -/
def cstrOfRead (cap : Nat) (data : List Char) : CStr :=
  (data.take (cap - 1)).takeWhile (fun c => c != NUL)

/-- Offset of the first occurrence of `c` in `s` (`strchr`), `none` for `NULL`. -/
def strchr : CStr → Char → Option Nat
  | [], _ => none
  | x :: xs, c => if x = c then some 0 else (strchr xs c).map (fun k => k + 1)

/-- Effect of `strncpy(dst, src, n); dst[n] = 0` on the C string in `dst`. -/
def strncpy (src : CStr) (n : Nat) : CStr := src.take n

/-- Length of the initial segment of `s` free of `c` (`strcspn` with a one-byte reject set). -/
def strcspn (s : CStr) (c : Char) : Nat := (s.takeWhile (fun x => x != c)).length

/-- Effect of `snprintf(dst, size, ...)` when the formatted text is `text`. -/
def snprintf (size : Nat) (text : CStr) : CStr := text.take (size - 1)

/-- The clamp `if (pos >= MAX_NAME) pos = MAX_NAME-1;`. -/
def clampName (pos : Nat) : Nat := if pos ≥ MAX_NAME then MAX_NAME - 1 else pos

/-- Two decimal digits, as `%H`, `%M` and `%S` print them. -/
def twoDigits (n : Nat) : CStr :=
  [Char.ofNat (48 + n / 10 % 10), Char.ofNat (48 + n % 10)]

/-- Text of `strftime(.., "%H:%M:%S", localtime(&t))` in a zone `tz` seconds
east of UTC. -/
def strftimeHMS (tz : Int) (t : Int) : CStr :=
  let s := ((t + tz) % 86400).toNat
  twoDigits (s / 3600) ++ ':' :: twoDigits (s % 3600 / 60) ++ ':' :: twoDigits (s % 60)

/-! ## Data model -/

/-- A `struct sockaddr_in`, reduced to address and port. -/
structure SockAddr where
  ip : Nat
  port : Nat
  deriving DecidableEq

/-- One row of the static credential table. -/
structure Cred where
  campus : CStr
  password : CStr
  deriving DecidableEq

def validCreds : List Cred :=
  [ ⟨"Lahore".toList, "NU-LHR-123".toList⟩,
    ⟨"Karachi".toList, "NU-KHI-123".toList⟩,
    ⟨"Peshawar".toList, "NU-PSH-123".toList⟩,
    ⟨"CFD".toList, "NU-CFD-123".toList⟩,
    ⟨"Multan".toList, "NU-MTN-123".toList⟩ ]

/-- The global per-client arrays and `clientCount`. -/
structure Registry where
  tcpSockets : Nat → Int
  clientCampus : Nat → CStr
  clientDept : Nat → CStr
  clientCount : Nat
  udpAddr : Nat → SockAddr
  lastSeen : Nat → Int
  udpKnown : Nat → Int

/-- The zero-initialised globals at program start. -/
def Registry.empty : Registry :=
  { tcpSockets := fun _ => 0
    clientCampus := fun _ => []
    clientDept := fun _ => []
    clientCount := 0
    udpAddr := fun _ => ⟨0, 0⟩
    lastSeen := fun _ => 0
    udpKnown := fun _ => 0 }

/-- Observable actions of the server: lock operations and network calls. -/
inductive Ev where
  | lock
  | unlock
  | send (fd : Int) (text : CStr)
  | sendto (addr : SockAddr) (text : CStr)
  | close (fd : Int)
  deriving DecidableEq

/-- The `send` calls of a trace, in order, as (descriptor, text). -/
def sendsOf : List Ev → List (Int × CStr)
  | [] => []
  | Ev.send fd text :: rest => (fd, text) :: sendsOf rest
  | _ :: rest => sendsOf rest

/-! ## Authenticator and lookups -/

/-- Credential check of `authenticate`: 1 (`true`) iff some table row matches both strings. -/
def authenticate (campus pass : CStr) : Bool :=
  validCreds.any (fun cr => cr.campus == campus && cr.password == pass)

/-- The loop `for (i = start; i < start + n; i++) if (p i) return i; return -1;`. -/
def findLoop (p : Nat → Bool) : Nat → Nat → Option Nat
  | _, 0 => none
  | i, n + 1 => if p i then some i else findLoop p (i + 1) n

def findClientByCampus (reg : Registry) (campus : CStr) : Option Nat :=
  findLoop (fun i => reg.clientCampus i == campus) 0 reg.clientCount

def findClientByCampusAndDept (reg : Registry) (campus dept : CStr) : Option Nat :=
  findLoop (fun i => reg.clientCampus i == campus && reg.clientDept i == dept) 0 reg.clientCount

/-! ## Listing responder (`handleListRequest`) -/

/-- The `tsbuf` of slot `i`: `"never"` unless `udpKnown[i]`, else the formatted `lastSeen[i]`. -/
def tsbuf (tz : Int) (reg : Registry) (i : Nat) : CStr :=
  if reg.udpKnown i ≠ 0 then strftimeHMS tz (reg.lastSeen i) else "never".toList

/-- Untruncated text of the `snprintf` that builds the entry of slot `i`. -/
def entryText (tz : Int) (reg : Registry) (i : Nat) : CStr :=
  "  ".toList ++ (Nat.repr (i + 1)).toList ++ ". ".toList ++ reg.clientCampus i
    ++ " - ".toList ++ reg.clientDept i ++ " (Last seen: ".toList ++ tsbuf tz reg i
    ++ ")\n".toList

/-- The `char entry[100]` of slot `i` after `snprintf(entry, sizeof(entry), ...)`. -/
def listEntry (tz : Int) (reg : Registry) (i : Nat) : CStr :=
  snprintf 100 (entryText tz reg i)

/-- The `strcat` loop over slots `i, i+1, ..` (`n` iterations). -/
def listEntries (tz : Int) (reg : Registry) : Nat → Nat → CStr
  | _, 0 => []
  | i, n + 1 => listEntry tz reg i ++ listEntries tz reg (i + 1) n

/-- The `listMsg` built by `handleListRequest`. -/
def listMsg (tz : Int) (reg : Registry) : CStr :=
  "[SERVER] Connected Campuses:\n".toList
    ++ (if reg.clientCount = 0 then "  No campuses connected.\n".toList
        else listEntries tz reg 0 reg.clientCount)
    ++ "----------------------------\n".toList

/-- Trace of `handleListRequest(sock, clientIndex)`; the registry is only read. -/
def handleListRequest (tz : Int) (reg : Registry) (sock : Int) : List Ev :=
  [Ev.lock, Ev.send sock (listMsg tz reg), Ev.unlock]

/-! ## Per-client reader (`clientHandler`) -/

/-- One iteration `arr[j] = arr[j+1]` of the removal loop, on all six arrays. -/
def copySlot (reg : Registry) (j : Nat) : Registry :=
  { reg with
    tcpSockets := Function.update reg.tcpSockets j (reg.tcpSockets (j + 1))
    clientCampus := Function.update reg.clientCampus j (reg.clientCampus (j + 1))
    clientDept := Function.update reg.clientDept j (reg.clientDept (j + 1))
    udpAddr := Function.update reg.udpAddr j (reg.udpAddr (j + 1))
    lastSeen := Function.update reg.lastSeen j (reg.lastSeen (j + 1))
    udpKnown := Function.update reg.udpKnown j (reg.udpKnown (j + 1)) }

/-- The loop `for (j = start; ..; j++) arr[j] = arr[j+1];` run for `n` iterations. -/
def shiftLoop (reg : Registry) : Nat → Nat → Registry
  | _, 0 => reg
  | j, n + 1 => shiftLoop (copySlot reg j) (j + 1) n

/-- The critical section run when `read` returns `n <= 0`:
`for (j = index; j < clientCount-1; j++) ..; clientCount--;`.
A reader exists only for a registered session (`handlers_length_run`), so the
count is at least 1 when this runs and the decrement stays in range. -/
def removeClient (reg : Registry) (index : Nat) : Registry :=
  let shifted := shiftLoop reg index (reg.clientCount - 1 - index)
  { shifted with clientCount := reg.clientCount - 1 }

/-- The reply of both malformed-line branches. -/
def formatError : CStr := "[SERVER] Error: Use format TargetCampus,Dept,Message".toList

/-- Text formatted by `"[%s %s -> %s %s] %s"`. -/
def forwardText (srcCampus srcDept tgtCampus tgtDept message : CStr) : CStr :=
  '[' :: srcCampus ++ ' ' :: srcDept ++ " -> ".toList ++ tgtCampus ++ ' ' :: tgtDept
    ++ "] ".toList ++ message

/-- Text formatted by `"[SERVER] Target campus %s not connected."`. -/
def notConnectedText (tgtCampus : CStr) : CStr :=
  "[SERVER] Target campus ".toList ++ tgtCampus ++ " not connected.".toList

/-- Split of a routing line at its first two commas with the copies into
`tgtCampus[MAX_NAME]`, `tgtDept[MAX_NAME]` and `message[MAX_MSG]`; `none` when
either `strchr` returns `NULL`. -/
def parseRouting (buf : CStr) : Option (CStr × CStr × CStr) :=
  match strchr buf ',' with
  | none => none
  | some p1 =>
    let tgtCampus := strncpy buf (clampName p1)
    let rest := buf.drop (p1 + 1)
    match strchr rest ',' with
    | none => none
    | some p2 =>
      let tgtDept := strncpy rest (clampName p2)
      let message := rest.drop (p2 + 1)
      some (tgtCampus, tgtDept, message)

/-- The critical section that resolves the destination and sends. -/
def route (reg : Registry) (index : Nat) (sock : Int)
    (tgtCampus tgtDept message : CStr) : List Ev :=
  let forward := snprintf MAX_MSG
    (forwardText (reg.clientCampus index) (reg.clientDept index) tgtCampus tgtDept message)
  match findClientByCampusAndDept reg tgtCampus tgtDept with
  | none =>
    match findClientByCampus reg tgtCampus with
    | none => [Ev.lock, Ev.send sock (snprintf MAX_MSG (notConnectedText tgtCampus)), Ev.unlock]
    | some campusIdx => [Ev.lock, Ev.send (reg.tcpSockets campusIdx) forward, Ev.unlock]
  | some destIdx => [Ev.lock, Ev.send (reg.tcpSockets destIdx) forward, Ev.unlock]

/-- Body of the reader loop for a received line `buf` (the C string in `buf`
after `buf[n] = 0`), run by the thread holding `index` and `sock`.
Returns the registry afterwards and the trace. -/
def clientHandlerLine (tz : Int) (reg : Registry) (index : Nat) (sock : Int)
    (buf : CStr) : Registry × List Ev :=
  if buf = "LIST_REQUEST".toList then (reg, handleListRequest tz reg sock)
  else
    match parseRouting buf with
    | none => (reg, [Ev.send sock formatError])
    | some (tgtCampus, tgtDept, message) =>
      (reg, route reg index sock tgtCampus tgtDept message)

/-- One iteration of the reader loop; `data` are the bytes `read` delivered,
empty when `read` returned `n <= 0`. The Boolean tells whether the thread exits. -/
def clientHandlerRead (tz : Int) (reg : Registry) (index : Nat) (sock : Int)
    (data : List Char) : Registry × List Ev × Bool :=
  if data = [] then (removeClient reg index, [Ev.close sock, Ev.lock, Ev.unlock], true)
  else
    let r := clientHandlerLine tz reg index sock (cstrOfRead MAX_MSG data)
    (r.1, r.2, false)

/-! ## Heartbeat listener (`udpListener`) -/

/-- Split of a heartbeat into `campusName` and `deptName`. -/
def parseHeartbeat (buf : CStr) : CStr × CStr :=
  match strchr buf '|' with
  | none => (strncpy buf (MAX_NAME - 1), "Unknown".toList)
  | some p => (strncpy buf (clampName p), strncpy (buf.drop (p + 1)) (MAX_NAME - 1))

/-- The three assignments `udpAddr[idx] = cliAddr; lastSeen[idx] = time(NULL); udpKnown[idx] = 1;`. -/
def touch (reg : Registry) (idx : Nat) (cliAddr : SockAddr) (now : Int) : Registry :=
  { reg with
    udpAddr := Function.update reg.udpAddr idx cliAddr
    lastSeen := Function.update reg.lastSeen idx now
    udpKnown := Function.update reg.udpKnown idx 1 }

/-- Handling of one datagram whose C string is `buf`, received from `cliAddr`
when `time(NULL)` is `now`. -/
def udpListenerDatagram (reg : Registry) (buf : CStr) (cliAddr : SockAddr)
    (now : Int) : Registry × List Ev :=
  let names := parseHeartbeat buf
  match findClientByCampusAndDept reg names.1 names.2 with
  | some idx => (touch reg idx cliAddr now, [Ev.lock, Ev.unlock])
  | none =>
    match findClientByCampus reg names.1 with
    | some idx => (touch reg idx cliAddr now, [Ev.lock, Ev.unlock])
    | none => (reg, [Ev.lock, Ev.unlock])

/-! ## Connection acceptor (`main`) -/

def badFormat : CStr := "BAD_FORMAT: Use Campus:Dept:Password".toList

/-- Split of a handshake line at its first two colons with the copies into
`campus`, `dept` and `pass` (each `char[MAX_NAME]`); `none` when either
`strchr` returns `NULL`. -/
def parseHandshake (buf : CStr) : Option (CStr × CStr × CStr) :=
  match strchr buf ':' with
  | none => none
  | some p1 =>
    let rest := buf.drop (p1 + 1)
    match strchr rest ':' with
    | none => none
    | some p2 =>
      let campus := strncpy buf (clampName p1)
      let dept := strncpy rest (clampName p2)
      let pass0 := strncpy (rest.drop (p2 + 1)) (MAX_NAME - 1)
      let pass := pass0.take (strcspn pass0 NL)
      some (campus, dept, pass)

/-- The registration block: fills slot `clientCount` and increments the count.
`udpAddr[clientCount]` is not written. -/
def register (reg : Registry) (clientSock : Int) (campus dept : CStr) : Registry :=
  { reg with
    tcpSockets := Function.update reg.tcpSockets reg.clientCount clientSock
    clientCampus := Function.update reg.clientCampus reg.clientCount (strncpy campus (MAX_NAME - 1))
    clientDept := Function.update reg.clientDept reg.clientCount (strncpy dept (MAX_NAME - 1))
    udpKnown := Function.update reg.udpKnown reg.clientCount 0
    lastSeen := Function.update reg.lastSeen reg.clientCount 0
    clientCount := reg.clientCount + 1 }

/-- Body of the accept loop once the handshake line `buf` has been read from
`clientSock`. Returns the registry, the trace and, when a reader thread is
started, its `indexForThread`. -/
def handshake (reg : Registry) (clientSock : Int) (buf : CStr) :
    Registry × List Ev × Option Nat :=
  match parseHandshake buf with
  | none => (reg, [Ev.send clientSock (badFormat.take 35), Ev.close clientSock], none)
  | some (campus, dept, pass) =>
    if !authenticate campus pass then
      (reg, [Ev.send clientSock ("AUTH_FAILED".toList.take 11), Ev.close clientSock], none)
    else if reg.clientCount ≥ MAX_CLIENTS then
      (reg, [Ev.lock, Ev.unlock, Ev.send clientSock ("SERVER_FULL".toList.take 11),
             Ev.close clientSock], none)
    else
      (register reg clientSock campus dept,
       [Ev.lock, Ev.unlock, Ev.send clientSock ("AUTH_OK".toList.take 7)],
       some reg.clientCount)

/-- One iteration of the accept loop; `data` are the bytes the first `read`
delivered, empty when it returned `n <= 0`. -/
def acceptClient (reg : Registry) (clientSock : Int) (data : List Char) :
    Registry × List Ev × Option Nat :=
  if data = [] then (reg, [Ev.close clientSock], none)
  else handshake reg clientSock (cstrOfRead 256 data)

/-! ## The server as a transition system -/

/-- A running reader thread: the `index` it read from its argument and the
`sock` it read from `tcpSockets[index]` when it started. -/
structure Handler where
  index : Nat
  sock : Int
  deriving DecidableEq

/-- Registry plus the reader threads that are alive, oldest first. -/
structure Server where
  reg : Registry
  handlers : List Handler

def Server.init : Server := { reg := Registry.empty, handlers := [] }

/-- What can happen to the server. Received `data` is empty when the call
returned `n <= 0`. -/
inductive Event where
  /-- `accept` returned `sock` and the first `read` on it delivered `data`. -/
  | connect (sock : Int) (data : List Char)
  /-- The `read` of the `t`-th live reader thread delivered `data`. -/
  | recv (t : Nat) (data : List Char)
  /-- `recvfrom` delivered the datagram `data` from `src` when `time(NULL)` was `now`. -/
  | heartbeat (data : List Char) (src : SockAddr) (now : Int)

/-- One transition; the reader started by a successful handshake captures
`indexForThread` and `tcpSockets[indexForThread]`. -/
def step (tz : Int) (s : Server) : Event → Server × List Ev
  | Event.connect sock data =>
    match acceptClient s.reg sock data with
    | (reg, evs, some idx) => ({ reg := reg, handlers := s.handlers ++ [⟨idx, reg.tcpSockets idx⟩] }, evs)
    | (reg, evs, none) => ({ reg := reg, handlers := s.handlers }, evs)
  | Event.recv t data =>
    match s.handlers.get? t with
    | none => (s, [])
    | some h =>
      match clientHandlerRead tz s.reg h.index h.sock data with
      | (reg, evs, true) => ({ reg := reg, handlers := s.handlers.eraseIdx t }, evs)
      | (reg, evs, false) => ({ reg := reg, handlers := s.handlers }, evs)
  | Event.heartbeat data src now =>
    if data = [] then (s, [])
    else
      let r := udpListenerDatagram s.reg (cstrOfRead 256 data) src now
      ({ reg := r.1, handlers := s.handlers }, r.2)

/-- The state after a sequence of events, from `s`. -/
def runFrom (tz : Int) (s : Server) : List Event → Server
  | [] => s
  | e :: es => runFrom tz (step tz s e).1 es

/-- The state after a sequence of events, from program start. -/
def run (tz : Int) (events : List Event) : Server := runFrom tz Server.init events

/-- The identity stored in slot `i`. -/
def identity (reg : Registry) (i : Nat) : CStr × CStr := (reg.clientCampus i, reg.clientDept i)

/-- Registered identities are pairwise distinct. -/
def PairsDistinct (reg : Registry) : Prop :=
  ∀ i, i < reg.clientCount → ∀ j, j < reg.clientCount → i ≠ j → identity reg i ≠ identity reg j

instance (reg : Registry) : Decidable (PairsDistinct reg) := by
  unfold PairsDistinct; infer_instance

/-- A successful handshake (one that starts a reader) is fresh when the
identity under which it is stored is not registered: the lookup by the campus
and department that `parseHandshake` returns (the fields of the line the
255-byte `read` delivered, each cut to its first 39 characters) finds nothing.
Every other event is fresh. -/
def freshEvent (s : Server) : Event → Bool
  | Event.connect sock data =>
    match (acceptClient s.reg sock data).2.2, parseHandshake (cstrOfRead 256 data) with
    | some _, some (campus, dept, _) => (findClientByCampusAndDept s.reg campus dept).isNone
    | _, _ => true
  | _ => true

/-- Every successful handshake of the run is fresh at the moment it happens. -/
def freshRun (tz : Int) (s : Server) : List Event → Bool
  | [] => true
  | e :: es => freshEvent s e && freshRun tz (step tz s e).1 es

/-- All six array cells of slot `k`. -/
def slot (reg : Registry) (k : Nat) : Int × CStr × CStr × SockAddr × Int × Int :=
  (reg.tcpSockets k, reg.clientCampus k, reg.clientDept k, reg.udpAddr k, reg.lastSeen k,
    reg.udpKnown k)

/-! ## Operator console (`adminConsole`) -/

/-- The slots `0 .. clientCount-1`, in order. -/
def entries (reg : Registry) : List (Int × CStr × CStr × SockAddr × Int × Int) :=
  (List.range reg.clientCount).map (slot reg)

/-! ## Scenarios used by the closed theorems -/

/-- Two handshakes that both succeed, presenting the same campus and department. -/
def twoSameHandshakes : List Event :=
  [Event.connect 4 "Lahore:CS:NU-LHR-123".toList,
   Event.connect 5 "Lahore:CS:NU-LHR-123".toList]

/-- A run with three distinct registrations, a heartbeat and a disconnection. -/
def freshExample : List Event :=
  [Event.connect 4 "Lahore:CS:NU-LHR-123".toList,
   Event.connect 5 "Lahore:EE:NU-LHR-123".toList,
   Event.connect 6 "Karachi:CS:NU-KHI-123".toList,
   Event.heartbeat "Lahore|EE".toList ⟨1, 7000⟩ 100,
   Event.recv 0 []]

/-- The line `c,d,m`. -/
def routingLine (c d m : CStr) : CStr := c ++ ',' :: (d ++ ',' :: m)

/-- Four successful handshakes: slots 0 and 1 both hold (Lahore, CS), slot 2
holds (Lahore, EE) and slot 3 holds (Karachi, CS). -/
def duplicateRouting : List Event :=
  [Event.connect 4 "Lahore:CS:NU-LHR-123".toList,
   Event.connect 5 "Lahore:CS:NU-LHR-123".toList,
   Event.connect 6 "Lahore:EE:NU-LHR-123".toList,
   Event.connect 7 "Karachi:CS:NU-KHI-123".toList]

/-- Three successful handshakes: (Lahore, E), (Lahore, d..d) with 39 times `d`,
and (Karachi, CS). -/
def longDeptRouting : List Event :=
  [Event.connect 4 "Lahore:E:NU-LHR-123".toList,
   Event.connect 5 ("Lahore:".toList ++ List.replicate 39 'd' ++ ":NU-LHR-123".toList),
   Event.connect 6 "Karachi:CS:NU-KHI-123".toList]

/-- Three sessions register (Lahore, Karachi, Multan on sockets 4, 5, 6), then
the Lahore session's stream closes. -/
def staleSetup : List Event :=
  [Event.connect 4 "Lahore:CS:NU-LHR-123".toList,
   Event.connect 5 "Karachi:CS:NU-KHI-123".toList,
   Event.connect 6 "Multan:CS:NU-MTN-123".toList,
   Event.recv 0 []]

/-- Ten successful handshakes on sockets 4 .. 13, with departments D0 .. D9. -/
def fullHouse : List Event :=
  (List.range 10).map (fun (i : Nat) =>
    Event.connect (4 + Int.ofNat i) ("Lahore:D".toList ++ (Nat.repr i).toList
      ++ ":NU-LHR-123".toList))

/-- The datagram `c|d`. -/
def heartbeatLine (c d : CStr) : CStr := c ++ '|' :: d

/-- The handshake line `c:d:rest`. -/
def handshakeLine (c d rest : CStr) : CStr := c ++ ':' :: (d ++ ':' :: rest)

/-- The password field of a handshake: the text after the second colon up to
the first newline. -/
def passwordField (rest : CStr) : CStr := rest.takeWhile (fun x => x != NL)

/-- Three registrations, each followed by a heartbeat of the new session. -/
def threeKnown : List Event :=
  [Event.connect 4 "Lahore:CS:NU-LHR-123".toList,
   Event.heartbeat "Lahore|CS".toList ⟨1, 7000⟩ 100,
   Event.connect 5 "Karachi:CS:NU-KHI-123".toList,
   Event.heartbeat "Karachi|CS".toList ⟨2, 7000⟩ 200,
   Event.connect 6 "Multan:CS:NU-MTN-123".toList,
   Event.heartbeat "Multan|CS".toList ⟨3, 7000⟩ 300]

/-- A request line of 1110 characters: `Lahore,EE,` followed by 1100 times `z`. -/
def longRequest : List Char :=
  routingLine "Lahore".toList "EE".toList (List.replicate 1100 'z')

/-- Two successful handshakes whose department fields differ (39 and 40 times
`x`) but are stored alike. -/
def truncatedTwins : List Event :=
  [Event.connect 4 ("Lahore:".toList ++ List.replicate 39 'x' ++ ":NU-LHR-123".toList),
   Event.connect 5 ("Lahore:".toList ++ List.replicate 40 'x' ++ ":NU-LHR-123".toList)]

/-! ## Lemmas on the helpers -/

theorem findLoop_none_iff (p : Nat → Bool) (n : Nat) : ∀ i,
    findLoop p i n = none ↔ ∀ k, i ≤ k → k < i + n → p k = false := by
  induction n with
  | zero => intro i; simp [findLoop]; intro k h1 h2; omega
  | succ n ih =>
    intro i
    simp only [findLoop]
    by_cases hp : p i = true
    · simp only [hp, if_true]
      constructor
      · intro h; cases h
      · intro h; have := h i (le_refl _) (by omega); simp [hp] at this
    · simp only [hp, if_false, Bool.false_eq_true]
      rw [ih (i + 1)]
      constructor
      · intro h k h1 h2
        by_cases hk : k = i
        · subst hk; simpa using hp
        · exact h k (by omega) (by omega)
      · intro h k h1 h2; exact h k (by omega) (by omega)

theorem findLoop_some_iff (p : Nat → Bool) (n : Nat) : ∀ i k,
    findLoop p i n = some k ↔
      i ≤ k ∧ k < i + n ∧ p k = true ∧ ∀ j, i ≤ j → j < k → p j = false := by
  induction n with
  | zero => intro i k; simp [findLoop]; intro h1 h2; omega
  | succ n ih =>
    intro i k
    simp only [findLoop]
    by_cases hp : p i = true
    · simp only [hp, if_true, Option.some.injEq]
      constructor
      · intro h; subst h
        exact ⟨le_refl _, by omega, hp, fun j h1 h2 => by omega⟩
      · rintro ⟨h1, _, _, h4⟩
        by_contra hne
        have := h4 i (le_refl _) (by omega)
        simp [hp] at this
    · simp only [hp, if_false, Bool.false_eq_true]
      rw [ih (i + 1) k]
      constructor
      · rintro ⟨h1, h2, h3, h4⟩
        refine ⟨by omega, by omega, h3, fun j hj1 hj2 => ?_⟩
        by_cases hj : j = i
        · subst hj; simpa using hp
        · exact h4 j (by omega) hj2
      · rintro ⟨h1, h2, h3, h4⟩
        have hne : k ≠ i := by rintro rfl; exact hp h3
        exact ⟨by omega, by omega, h3, fun j hj1 hj2 => h4 j (by omega) hj2⟩

theorem strchr_none_iff (s : CStr) (c : Char) : strchr s c = none ↔ c ∉ s := by
  induction s with
  | nil => simp [strchr]
  | cons x xs ih =>
    simp only [strchr]
    by_cases h : x = c
    · simp [h]
    · simp [h, ih, Ne.symm h]

theorem strchr_append (a b : CStr) (c : Char) (h : c ∉ a) :
    strchr (a ++ c :: b) c = some a.length := by
  induction a with
  | nil => simp [strchr]
  | cons x xs ih =>
    have hx : x ≠ c := fun e => h (by simp [e])
    have hxs : c ∉ xs := fun e => h (by simp [e])
    simp [strchr, hx, ih hxs]

theorem strchr_some (s : CStr) (c : Char) : ∀ k, strchr s c = some k →
    s = s.take k ++ c :: s.drop (k + 1) ∧ c ∉ s.take k := by
  induction s with
  | nil => intro k h; simp [strchr] at h
  | cons x xs ih =>
    intro k h
    simp only [strchr] at h
    by_cases hx : x = c
    · simp [hx] at h; subst h; simp [hx]
    · simp only [hx, if_false, Option.map_eq_some'] at h
      obtain ⟨k0, hk0, rfl⟩ := h
      obtain ⟨h1, h2⟩ := ih k0 hk0
      refine ⟨?_, ?_⟩
      · simp only [List.take_succ_cons, List.drop_succ_cons, List.cons_append]
        exact congrArg _ h1
      · simp only [List.take_succ_cons, List.mem_cons, not_or]
        exact ⟨Ne.symm hx, h2⟩

theorem slot_copySlot (reg : Registry) (j k : Nat) :
    slot (copySlot reg j) k = if k = j then slot reg (j + 1) else slot reg k := by
  by_cases h : k = j
  · subst h; simp [slot, copySlot]
  · simp [slot, copySlot, Function.update_noteq h, h]

theorem slot_shiftLoop (n : Nat) : ∀ (reg : Registry) (j k : Nat),
    slot (shiftLoop reg j n) k =
      if j ≤ k ∧ k < j + n then slot reg (k + 1) else slot reg k := by
  induction n with
  | zero =>
    intro reg j k
    have h : ¬ (j ≤ k ∧ k < j + 0) := by omega
    simp only [shiftLoop, h, if_false]
  | succ n ih =>
    intro reg j k
    simp only [shiftLoop]
    rw [ih (copySlot reg j) (j + 1) k, slot_copySlot, slot_copySlot]
    by_cases h1 : j + 1 ≤ k ∧ k < j + 1 + n
    · have h2 : j ≤ k ∧ k < j + (n + 1) := by omega
      have h3 : k + 1 ≠ j := by omega
      simp [h1, h2, h3]
    · by_cases h4 : k = j
      · subst h4; simp
      · have h2 : ¬ (j ≤ k ∧ k < j + (n + 1)) := by omega
        simp [h1, h2, h4]

theorem clientCount_shiftLoop (n : Nat) : ∀ (reg : Registry) (j : Nat),
    (shiftLoop reg j n).clientCount = reg.clientCount := by
  induction n with
  | zero => intro reg j; rfl
  | succ n ih => intro reg j; simp only [shiftLoop]; rw [ih]; rfl

/-- Closed form of the removal: slots from `index` up to `clientCount - 2` take
the content of their right neighbour, every other slot keeps its content. -/
theorem slot_removeClient (reg : Registry) (index k : Nat) :
    slot (removeClient reg index) k =
      if index ≤ k ∧ k < index + (reg.clientCount - 1 - index) then slot reg (k + 1)
      else slot reg k := by
  have := slot_shiftLoop (reg.clientCount - 1 - index) reg index k
  simpa [removeClient, slot] using this

theorem identity_removeClient (reg : Registry) (index k : Nat) :
    identity (removeClient reg index) k =
      if index ≤ k ∧ k < index + (reg.clientCount - 1 - index) then identity reg (k + 1)
      else identity reg k := by
  have h := slot_removeClient reg index k
  simp only [slot] at h
  split_ifs at h ⊢ with hc
  · simp only [Prod.mk.injEq] at h
    simp [identity, h.2.1, h.2.2.1]
  · simp only [Prod.mk.injEq] at h
    simp [identity, h.2.1, h.2.2.1]

theorem clientCount_removeClient (reg : Registry) (index : Nat) :
    (removeClient reg index).clientCount = reg.clientCount - 1 := rfl

theorem PairsDistinct_removeClient (reg : Registry) (index : Nat)
    (h : PairsDistinct reg) : PairsDistinct (removeClient reg index) := by
  intro i hi j hj hij
  rw [clientCount_removeClient] at hi hj
  rw [identity_removeClient, identity_removeClient]
  split_ifs with h1 h2 h2
  · exact h (i + 1) (by omega) (j + 1) (by omega) (by omega)
  · exact h (i + 1) (by omega) j (by omega) (by omega)
  · exact h i (by omega) (j + 1) (by omega) (by omega)
  · exact h i (by omega) j (by omega) hij

theorem clampName_le (p : Nat) : clampName p ≤ MAX_NAME - 1 := by
  unfold clampName MAX_NAME; split_ifs <;> omega

theorem clampName_of_lt (p : Nat) (h : p < MAX_NAME) : clampName p = p := by
  unfold clampName; simp [Nat.not_le.mpr h]

theorem strncpy_length_le (s : CStr) (n : Nat) : (strncpy s n).length ≤ n := by
  simp [strncpy]

theorem strncpy_of_length_le (s : CStr) (n : Nat) (h : s.length ≤ n) : strncpy s n = s := by
  simp [strncpy, List.take_of_length_le h]

/-- The split performed by `parseHandshake`, spelled out. -/
theorem parseHandshake_eq_some (buf campus dept pass : CStr)
    (h : parseHandshake buf = some (campus, dept, pass)) :
    ∃ p1 p2, strchr buf ':' = some p1 ∧ strchr (buf.drop (p1 + 1)) ':' = some p2 ∧
      campus = strncpy buf (clampName p1) ∧
      dept = strncpy (buf.drop (p1 + 1)) (clampName p2) ∧
      pass = (strncpy ((buf.drop (p1 + 1)).drop (p2 + 1)) (MAX_NAME - 1)).take
        (strcspn (strncpy ((buf.drop (p1 + 1)).drop (p2 + 1)) (MAX_NAME - 1)) NL) := by
  unfold parseHandshake at h
  cases h1 : strchr buf ':' with
  | none => simp [h1] at h
  | some p1 =>
    simp only [h1] at h
    cases h2 : strchr (buf.drop (p1 + 1)) ':' with
    | none => simp [h2] at h
    | some p2 =>
      simp only [h2, Option.some.injEq, Prod.mk.injEq] at h
      exact ⟨p1, p2, rfl, h2, h.1.symm, h.2.1.symm, h.2.2.symm⟩

theorem parseHandshake_lengths (buf campus dept pass : CStr)
    (h : parseHandshake buf = some (campus, dept, pass)) :
    campus.length ≤ MAX_NAME - 1 ∧ dept.length ≤ MAX_NAME - 1 := by
  obtain ⟨p1, p2, -, -, hc, hd, -⟩ := parseHandshake_eq_some buf campus dept pass h
  subst hc hd
  exact ⟨le_trans (strncpy_length_le _ _) (clampName_le _),
    le_trans (strncpy_length_le _ _) (clampName_le _)⟩

theorem identity_register (reg : Registry) (sock : Int) (campus dept : CStr) (k : Nat) :
    identity (register reg sock campus dept) k =
      if k = reg.clientCount then (strncpy campus (MAX_NAME - 1), strncpy dept (MAX_NAME - 1))
      else identity reg k := by
  by_cases h : k = reg.clientCount
  · subst h; simp [identity, register]
  · simp [identity, register, Function.update_noteq h, h]

theorem findClientByCampusAndDept_none_iff (reg : Registry) (campus dept : CStr) :
    findClientByCampusAndDept reg campus dept = none ↔
      ∀ k, k < reg.clientCount → identity reg k ≠ (campus, dept) := by
  unfold findClientByCampusAndDept
  rw [findLoop_none_iff]
  constructor
  · intro h k hk he
    have := h k (Nat.zero_le _) (by omega)
    simp only [identity, Prod.mk.injEq] at he
    simp [he.1, he.2] at this
  · intro h k _ hk
    have := h k (by omega)
    simp only [identity, ne_eq, Prod.mk.injEq, not_and] at this
    by_cases hc : reg.clientCampus k = campus
    · simp [hc, this hc]
    · simp [hc]

theorem findClientByCampusAndDept_some_iff (reg : Registry) (campus dept : CStr) (i : Nat) :
    findClientByCampusAndDept reg campus dept = some i ↔
      i < reg.clientCount ∧ identity reg i = (campus, dept) ∧
        ∀ j, j < i → identity reg j ≠ (campus, dept) := by
  unfold findClientByCampusAndDept
  rw [findLoop_some_iff]
  simp only [identity, Prod.mk.injEq, ne_eq, not_and, Bool.and_eq_true, beq_iff_eq,
    Nat.zero_le, true_and, zero_add, Bool.and_eq_false_imp, beq_eq_false_iff_ne, true_implies]

theorem findClientByCampus_none_iff (reg : Registry) (campus : CStr) :
    findClientByCampus reg campus = none ↔
      ∀ k, k < reg.clientCount → reg.clientCampus k ≠ campus := by
  unfold findClientByCampus
  rw [findLoop_none_iff]
  simp only [Nat.zero_le, zero_add, true_implies, beq_eq_false_iff_ne, ne_eq]

theorem findClientByCampus_some_iff (reg : Registry) (campus : CStr) (i : Nat) :
    findClientByCampus reg campus = some i ↔
      i < reg.clientCount ∧ reg.clientCampus i = campus ∧
        ∀ j, j < i → reg.clientCampus j ≠ campus := by
  unfold findClientByCampus
  rw [findLoop_some_iff]
  simp only [Nat.zero_le, zero_add, true_implies, beq_eq_false_iff_ne, ne_eq, beq_iff_eq,
    true_and]

theorem PairsDistinct_register (reg : Registry) (sock : Int) (campus dept : CStr)
    (h : PairsDistinct reg) (hnew : findClientByCampusAndDept reg campus dept = none)
    (hc : campus.length ≤ MAX_NAME - 1) (hd : dept.length ≤ MAX_NAME - 1) :
    PairsDistinct (register reg sock campus dept) := by
  rw [findClientByCampusAndDept_none_iff] at hnew
  intro i hi j hj hij
  have hcount : (register reg sock campus dept).clientCount = reg.clientCount + 1 := rfl
  rw [hcount] at hi hj
  rw [identity_register, identity_register, strncpy_of_length_le _ _ hc,
    strncpy_of_length_le _ _ hd]
  split_ifs with h1 h2 h2
  · omega
  · exact fun e => hnew j (by omega) e.symm
  · exact hnew i (by omega)
  · exact h i (by omega) j (by omega) hij

theorem PairsDistinct_of_same_names (reg reg2 : Registry)
    (hn : reg2.clientCount = reg.clientCount) (hc : reg2.clientCampus = reg.clientCampus)
    (hd : reg2.clientDept = reg.clientDept) (h : PairsDistinct reg) : PairsDistinct reg2 := by
  intro i hi j hj hij
  simp only [identity, hc, hd]
  exact h i (hn ▸ hi) j (hn ▸ hj) hij

theorem clientHandlerLine_reg (tz : Int) (reg : Registry) (index : Nat) (sock : Int)
    (buf : CStr) : (clientHandlerLine tz reg index sock buf).1 = reg := by
  unfold clientHandlerLine
  split_ifs
  · rfl
  · split <;> rfl

theorem PairsDistinct_udpListenerDatagram (reg : Registry) (buf : CStr) (a : SockAddr)
    (now : Int) (h : PairsDistinct reg) : PairsDistinct (udpListenerDatagram reg buf a now).1 := by
  unfold udpListenerDatagram
  simp only
  split
  · exact PairsDistinct_of_same_names reg _ rfl rfl rfl h
  · split
    · exact PairsDistinct_of_same_names reg _ rfl rfl rfl h
    · exact h

theorem PairsDistinct_handshake (reg : Registry) (sock : Int) (buf : CStr)
    (h : PairsDistinct reg)
    (hfresh : ∀ campus dept pass, (handshake reg sock buf).2.2.isSome = true →
      parseHandshake buf = some (campus, dept, pass) →
      findClientByCampusAndDept reg campus dept = none) :
    PairsDistinct (handshake reg sock buf).1 := by
  have hf := hfresh
  unfold handshake at hf ⊢
  cases hp : parseHandshake buf with
  | none => exact h
  | some r =>
    obtain ⟨campus, dept, pass⟩ := r
    simp only [hp] at hf ⊢
    by_cases h1 : (!authenticate campus pass) = true
    · rw [if_pos h1]; exact h
    · rw [if_neg h1] at hf ⊢
      by_cases h2 : reg.clientCount ≥ MAX_CLIENTS
      · rw [if_pos h2]; exact h
      · rw [if_neg h2] at hf ⊢
        obtain ⟨hc, hd⟩ := parseHandshake_lengths buf campus dept pass hp
        exact PairsDistinct_register reg sock campus dept h (hf campus dept pass rfl rfl) hc hd

theorem PairsDistinct_step (tz : Int) (s : Server) (e : Event)
    (h : PairsDistinct s.reg) (hf : freshEvent s e = true) :
    PairsDistinct (step tz s e).1.reg := by
  cases e with
  | connect sock data =>
    have key : PairsDistinct (acceptClient s.reg sock data).1 := by
      simp only [freshEvent] at hf
      unfold acceptClient at hf ⊢
      by_cases h0 : data = []
      · rw [if_pos h0]; exact h
      · rw [if_neg h0] at hf ⊢
        apply PairsDistinct_handshake _ _ _ h
        intro campus dept pass hsome hp
        obtain ⟨idx, hidx⟩ := Option.isSome_iff_exists.mp hsome
        rw [hidx, hp] at hf
        simpa using hf
    simp only [step]
    rcases hr : acceptClient s.reg sock data with ⟨reg, evs, _ | idx⟩ <;>
      (rw [hr] at key; exact key)
  | recv t data =>
    simp only [step]
    cases hh : s.handlers.get? t with
    | none => exact h
    | some hd =>
      simp only [clientHandlerRead]
      split_ifs
      · exact PairsDistinct_removeClient _ _ h
      · simp only [clientHandlerLine_reg]
        exact h
  | heartbeat data src now =>
    simp only [step]
    split_ifs
    · exact h
    · exact PairsDistinct_udpListenerDatagram _ _ _ _ h

theorem PairsDistinct_runFrom (tz : Int) (events : List Event) : ∀ s : Server,
    PairsDistinct s.reg → freshRun tz s events = true →
      PairsDistinct (runFrom tz s events).reg := by
  induction events with
  | nil => intro s h _; exact h
  | cons e es ih =>
    intro s h hf
    simp only [freshRun, Bool.and_eq_true] at hf
    exact ih _ (PairsDistinct_step tz s e h hf.1) hf.2

/-! ## Readers and registered sessions -/

theorem handshake_count (reg : Registry) (sock : Int) (buf : CStr) :
    ((handshake reg sock buf).2.2 = none ∧
        (handshake reg sock buf).1.clientCount = reg.clientCount) ∨
    ((handshake reg sock buf).2.2 = some reg.clientCount ∧
        (handshake reg sock buf).1.clientCount = reg.clientCount + 1) := by
  unfold handshake
  cases parseHandshake buf with
  | none => exact Or.inl ⟨rfl, rfl⟩
  | some r =>
    obtain ⟨campus, dept, pass⟩ := r
    simp only
    by_cases h1 : (!authenticate campus pass) = true
    · rw [if_pos h1]; exact Or.inl ⟨rfl, rfl⟩
    · rw [if_neg h1]
      by_cases h2 : reg.clientCount ≥ MAX_CLIENTS
      · rw [if_pos h2]; exact Or.inl ⟨rfl, rfl⟩
      · rw [if_neg h2]; exact Or.inr ⟨rfl, rfl⟩

theorem acceptClient_count (reg : Registry) (sock : Int) (data : List Char) :
    ((acceptClient reg sock data).2.2 = none ∧
        (acceptClient reg sock data).1.clientCount = reg.clientCount) ∨
    ((acceptClient reg sock data).2.2 = some reg.clientCount ∧
        (acceptClient reg sock data).1.clientCount = reg.clientCount + 1) := by
  unfold acceptClient
  by_cases h0 : data = []
  · rw [if_pos h0]; exact Or.inl ⟨rfl, rfl⟩
  · rw [if_neg h0]; exact handshake_count reg sock _

theorem udpListenerDatagram_count (reg : Registry) (buf : CStr) (src : SockAddr) (now : Int) :
    (udpListenerDatagram reg buf src now).1.clientCount = reg.clientCount := by
  unfold udpListenerDatagram
  simp only
  split
  · rfl
  · split <;> rfl

/-- Every transition keeps one live reader per registered slot, so the
decrement of `clientCount` in the removal always starts from a count of at
least one. -/
theorem handlers_length_step (tz : Int) (s : Server) (e : Event)
    (h : s.handlers.length = s.reg.clientCount) :
    (step tz s e).1.handlers.length = (step tz s e).1.reg.clientCount := by
  cases e with
  | connect sock data =>
    simp only [step]
    have hc := acceptClient_count s.reg sock data
    rcases hr : acceptClient s.reg sock data with ⟨reg, evs, _ | idx⟩
    · rw [hr] at hc
      rcases hc with ⟨-, h2⟩ | ⟨h1, -⟩
      · simpa [h] using h2.symm
      · cases h1
    · rw [hr] at hc
      rcases hc with ⟨h1, -⟩ | ⟨-, h2⟩
      · cases h1
      · simpa [h] using h2.symm
  | recv t data =>
    simp only [step]
    cases hh : s.handlers.get? t with
    | none => exact h
    | some hd =>
      have ht : t < s.handlers.length := by
        by_contra hge
        rw [List.get?_eq_none.mpr (by omega)] at hh
        cases hh
      simp only [clientHandlerRead]
      by_cases h0 : data = []
      · have ht2 : t < s.reg.clientCount := h ▸ ht
        simp only [h0, if_true, List.length_eraseIdx, clientCount_removeClient, h, ht2]
      · simp only [h0, if_false, clientHandlerLine_reg]
        exact h
  | heartbeat data src now =>
    simp only [step]
    by_cases h0 : data = []
    · simp only [h0, if_true]; exact h
    · simp only [h0, if_false, udpListenerDatagram_count]
      exact h

theorem handlers_length_run (tz : Int) (events : List Event) :
    (run tz events).handlers.length = (run tz events).reg.clientCount := by
  have key : ∀ (es : List Event) (s : Server), s.handlers.length = s.reg.clientCount →
      (runFrom tz s es).handlers.length = (runFrom tz s es).reg.clientCount := by
    intro es
    induction es with
    | nil => intro s h; exact h
    | cons e es ih => intro s h; exact ih _ (handlers_length_step tz s e h)
  exact key events Server.init rfl

/-- The lines `Lahore:<39 x>:..` and `Lahore:<40 x>:..` present different
departments, yet both are stored as (Lahore, 39 times `x`): the second
handshake is not fresh in the sense of `freshRun`, and the two slots hold the
same identity. -/
theorem truncatedTwins_not_fresh :
    freshRun 0 Server.init truncatedTwins = false ∧
    (run 0 truncatedTwins).reg.clientCount = 2 ∧
    identity (run 0 truncatedTwins).reg 0 = ("Lahore".toList, List.replicate 39 'x') ∧
    identity (run 0 truncatedTwins).reg 1 = ("Lahore".toList, List.replicate 39 'x') := by
  refine ⟨by decide, by decide, by decide, by decide⟩

/-! ## Reads that deliver a whole text line -/

theorem cstrOfRead_of_text (cap : Nat) (data : List Char) (hlen : data.length < cap)
    (hnul : ∀ c ∈ data, c ≠ NUL) : cstrOfRead cap data = data := by
  unfold cstrOfRead
  rw [List.take_of_length_le (by omega), List.takeWhile_eq_self_iff]
  intro c hc
  simpa using hnul c hc

theorem cstrOfRead_length_le (cap : Nat) (data : List Char) :
    (cstrOfRead cap data).length ≤ cap - 1 := by
  unfold cstrOfRead
  have h1 := (List.takeWhile_prefix (fun c => c != NUL) (l := data.take (cap - 1))).length_le
  have h2 : (data.take (cap - 1)).length ≤ cap - 1 := List.length_take_le _ _
  omega

/-- A non-empty text line shorter than the reader's buffer is handled whole by
one iteration of the reader loop, and the thread keeps running. -/
theorem clientHandlerRead_of_text (tz : Int) (reg : Registry) (index : Nat) (sock : Int)
    (data : List Char) (hne : data ≠ []) (hlen : data.length < MAX_MSG)
    (hnul : ∀ c ∈ data, c ≠ NUL) :
    clientHandlerRead tz reg index sock data =
      ((clientHandlerLine tz reg index sock data).1,
        (clientHandlerLine tz reg index sock data).2, false) := by
  unfold clientHandlerRead
  rw [if_neg hne, cstrOfRead_of_text MAX_MSG data hlen hnul]

/-- A non-empty text line that fits the 255-byte read is the handshake line. -/
theorem acceptClient_of_text (reg : Registry) (sock : Int) (data : List Char)
    (hne : data ≠ []) (hlen : data.length < 256) (hnul : ∀ c ∈ data, c ≠ NUL) :
    acceptClient reg sock data = handshake reg sock data := by
  unfold acceptClient
  rw [if_neg hne, cstrOfRead_of_text 256 data hlen hnul]

theorem routingLine_ne_nil (c d m : CStr) : routingLine c d m ≠ [] := by
  simp [routingLine]

theorem handshakeLine_ne_nil (c d rest : CStr) : handshakeLine c d rest ≠ [] := by
  simp [handshakeLine]

/-! ## C1: distinct identities -/

/-- C1, refuted as stated: after two successful handshakes with the same
campus and department (each answered `AUTH_OK`), slots 0 and 1 are both
registered and hold the same identity, so identities are not pairwise distinct. -/
theorem C1_duplicate_identities_registered :
    sendsOf (step 0 Server.init (Event.connect 4 "Lahore:CS:NU-LHR-123".toList)).2
        = [(4, "AUTH_OK".toList)] ∧
    sendsOf (step 0 (run 0 [Event.connect 4 "Lahore:CS:NU-LHR-123".toList])
        (Event.connect 5 "Lahore:CS:NU-LHR-123".toList)).2 = [(5, "AUTH_OK".toList)] ∧
    (run 0 twoSameHandshakes).reg.clientCount = 2 ∧
    identity (run 0 twoSameHandshakes).reg 0 = identity (run 0 twoSameHandshakes).reg 1 ∧
    ¬ PairsDistinct (run 0 twoSameHandshakes).reg := by
  refine ⟨by decide, by decide, by decide, by decide, by decide⟩

/-- C1, amended: in every state reached from program start by any sequence of
handshakes, reads (lines and disconnections) and heartbeats in which, for each
successful handshake, the identity under which the server stores the session
is not registered at that moment, the identities of slots `0 .. clientCount-1`
are pairwise distinct. The stored identity is the campus and the department of
the line the 255-byte `read` delivered, each cut to its first 39 characters
(`freshEvent` looks up exactly this pair). Disconnections and heartbeats never
break distinctness; only a handshake whose stored identity is already
registered does, and the server accepts it. -/
theorem C1_distinct_when_handshakes_fresh (tz : Int) (events : List Event)
    (hfresh : freshRun tz Server.init events = true) :
    PairsDistinct (run tz events).reg := by
  apply PairsDistinct_runFrom tz events Server.init _ hfresh
  intro i hi
  exact absurd hi (Nat.not_lt_zero _)

/-- Witness for C1: three fresh registrations, a heartbeat and a disconnection. -/
theorem C1_distinct_when_handshakes_fresh_witness :
    freshRun 0 Server.init freshExample = true ∧
      (run 0 freshExample).reg.clientCount = 2 ∧
      PairsDistinct (run 0 freshExample).reg :=
  ⟨by decide, by decide, C1_distinct_when_handshakes_fresh 0 freshExample (by decide)⟩

theorem take_append_length (a b : CStr) : (a ++ b).take a.length = a := by
  induction a with
  | nil => simp
  | cons x xs ih => simp [ih]

theorem drop_append_cons_length (a b : CStr) (c : Char) :
    (a ++ c :: b).drop (a.length + 1) = b := by
  induction a with
  | nil => simp
  | cons x xs ih => simp [ih]

/-- A line with two commas whose first two fields fit their buffers is split
into exactly those fields and the whole remainder. -/
theorem parseRouting_routingLine (c d m : CStr) (hc : c.length < MAX_NAME)
    (hd : d.length < MAX_NAME) (hcc : ',' ∉ c) (hdc : ',' ∉ d) :
    parseRouting (routingLine c d m) = some (c, d, m) := by
  unfold parseRouting routingLine
  rw [strchr_append c _ ',' hcc]
  simp only [drop_append_cons_length]
  rw [strchr_append d _ ',' hdc]
  simp only [drop_append_cons_length, clampName_of_lt _ hc, clampName_of_lt _ hd, strncpy,
    take_append_length]

theorem routingLine_ne_listRequest (c d m : CStr) : routingLine c d m ≠ "LIST_REQUEST".toList := by
  intro h
  have hm : ',' ∈ routingLine c d m := by simp [routingLine]
  rw [h] at hm
  revert hm
  decide

theorem snprintf_of_length_lt (size : Nat) (text : CStr) (h : text.length < size) :
    snprintf size text = text := by
  unfold snprintf
  exact List.take_of_length_le (by omega)

/-! ## C2: exact routing -/

/-- C2, refuted as stated: slots 0 and 1 both hold (Lahore, CS), slot 2 holds
(Lahore, EE), and the sender (Karachi, CS) is slot 3. Session A = slot 1
(channel 5) is registered with identity (Lahore, CS), yet the line
`Lahore,CS,hello` from the sender is sent to channel 4, not to A's channel 5. -/
theorem C2_duplicate_identity_misroutes :
    (run 0 duplicateRouting).reg.clientCount = 4 ∧
    identity (run 0 duplicateRouting).reg 1 = ("Lahore".toList, "CS".toList) ∧
    (run 0 duplicateRouting).reg.tcpSockets 1 = 5 ∧
    identity (run 0 duplicateRouting).reg 2 = ("Lahore".toList, "EE".toList) ∧
    identity (run 0 duplicateRouting).reg 3 = ("Karachi".toList, "CS".toList) ∧
    (run 0 duplicateRouting).handlers.get? 3 = some ⟨3, 7⟩ ∧
    sendsOf (step 0 (run 0 duplicateRouting)
        (Event.recv 3 (routingLine "Lahore".toList "CS".toList "hello".toList))).2
      = [(4, "[Karachi CS -> Lahore CS] hello".toList)] ∧
    sendsOf (step 0 (run 0 duplicateRouting)
        (Event.recv 3 (routingLine "Lahore".toList "CS".toList "hello".toList))).2
      ≠ [(5, "[Karachi CS -> Lahore CS] hello".toList)] := by
  refine ⟨by decide, by decide, by decide, by decide, by decide, by decide, by decide, by decide⟩

/-- C2, amended: let slot `iA` be the first registered slot with identity
`(X, D1)` (it is the only one when identities are pairwise distinct), with `X`
and `D1` shorter than 40 characters and free of commas. When the reader of
the registered slot `iS` handles the line `X,D1,m` and the envelope is shorter
than 1024 characters, the registry is unchanged and exactly one send happens:
to `tcpSockets[iA]`, with text `[S.campus S.dept -> X D1] m`; no send goes to a
descriptor other than A's, whichever other sessions of campus `X` exist. -/
theorem C2_exact_routing_to_first_match (tz : Int) (reg : Registry) (iA iS : Nat)
    (X D1 m : CStr)
    (hA : iA < reg.clientCount) (hAid : identity reg iA = (X, D1))
    (hfirst : ∀ j, j < iA → identity reg j ≠ (X, D1))
    (hX : X.length < MAX_NAME) (hD : D1.length < MAX_NAME)
    (hXc : ',' ∉ X) (hDc : ',' ∉ D1)
    (henv : (forwardText (reg.clientCampus iS) (reg.clientDept iS) X D1 m).length < MAX_MSG) :
    (clientHandlerLine tz reg iS (reg.tcpSockets iS) (routingLine X D1 m)).1 = reg ∧
    sendsOf (clientHandlerLine tz reg iS (reg.tcpSockets iS) (routingLine X D1 m)).2
      = [(reg.tcpSockets iA,
          forwardText (reg.clientCampus iS) (reg.clientDept iS) X D1 m)] ∧
    ∀ fd text, fd ≠ reg.tcpSockets iA →
      (fd, text) ∉ sendsOf (clientHandlerLine tz reg iS (reg.tcpSockets iS)
        (routingLine X D1 m)).2 := by
  have hfind : findClientByCampusAndDept reg X D1 = some iA :=
    (findClientByCampusAndDept_some_iff reg X D1 iA).mpr ⟨hA, hAid, hfirst⟩
  have hsends : sendsOf (clientHandlerLine tz reg iS (reg.tcpSockets iS) (routingLine X D1 m)).2
      = [(reg.tcpSockets iA,
          forwardText (reg.clientCampus iS) (reg.clientDept iS) X D1 m)] := by
    unfold clientHandlerLine
    rw [if_neg (routingLine_ne_listRequest X D1 m), parseRouting_routingLine X D1 m hX hD hXc hDc]
    simp only [route, hfind, snprintf_of_length_lt _ _ henv, sendsOf]
  refine ⟨clientHandlerLine_reg _ _ _ _ _, hsends, ?_⟩
  intro fd text hfd hmem
  rw [hsends] at hmem
  simp only [List.mem_singleton, Prod.mk.injEq] at hmem
  exact hfd hmem.1

/-- Witness for C2: (Karachi, CS) in slot 1 writes to (Lahore, EE) in slot 0. -/
theorem C2_exact_routing_to_first_match_witness :
    sendsOf (clientHandlerLine 0 (run 0 freshExample).reg 1
        ((run 0 freshExample).reg.tcpSockets 1)
        (routingLine "Lahore".toList "EE".toList "hello, all".toList)).2
      = [((run 0 freshExample).reg.tcpSockets 0,
          forwardText ((run 0 freshExample).reg.clientCampus 1)
            ((run 0 freshExample).reg.clientDept 1) "Lahore".toList "EE".toList
            "hello, all".toList)] :=
  (C2_exact_routing_to_first_match 0 (run 0 freshExample).reg 0 1
    "Lahore".toList "EE".toList "hello, all".toList (by decide) (by decide) (by decide)
    (by decide) (by decide) (by decide) (by decide) (by decide)).2.1

/-! ## C3: fallback routing -/

/-- C3, refuted as stated: slot 0 holds (Lahore, E) on channel 4, slot 1 holds
(Lahore, d..d) with 39 times `d` on channel 5, the sender is slot 2. No session
has identity (Lahore, d..d) with 40 times `d`, and the first session of campus
Lahore is slot 0; yet the line `Lahore,<40 times d>,hi` is sent to channel 5:
the department is cut to 39 characters and then matches slot 1 exactly. -/
theorem C3_long_department_skips_fallback :
    (∀ k, k < (run 0 longDeptRouting).reg.clientCount →
      identity (run 0 longDeptRouting).reg k ≠ ("Lahore".toList, List.replicate 40 'd')) ∧
    findClientByCampus (run 0 longDeptRouting).reg "Lahore".toList = some 0 ∧
    (run 0 longDeptRouting).reg.tcpSockets 0 = 4 ∧
    (run 0 longDeptRouting).handlers.get? 2 = some ⟨2, 6⟩ ∧
    (sendsOf (step 0 (run 0 longDeptRouting)
        (Event.recv 2 (routingLine "Lahore".toList (List.replicate 40 'd')
          "hi".toList))).2).map Prod.fst = [5] := by
  refine ⟨by decide, by decide, by decide, by decide, by decide⟩

/-- C3, amended: let `X` and `D1` be shorter than 40 characters and free of
commas, and let the line `X,D1,m` be text (no NUL byte) shorter than 1024
characters, so that one `read` of the reader delivers it whole. In every
registry where no registered slot has identity `(X, D1)` but some registered
slot has campus `X`, the iteration of the reader holding `index` and `sock`
that reads this line leaves the registry unchanged, keeps the reader running
and performs exactly one send: the forward envelope, to the channel of the
first registered slot whose campus is `X`. The not-connected reply is not sent. -/
theorem C3_fallback_routing_to_first_of_campus (tz : Int) (reg : Registry) (index : Nat)
    (sock : Int) (X D1 m : CStr)
    (hX : X.length < MAX_NAME) (hD : D1.length < MAX_NAME)
    (hXc : ',' ∉ X) (hDc : ',' ∉ D1)
    (hlen : (routingLine X D1 m).length < MAX_MSG)
    (hnul : ∀ c ∈ routingLine X D1 m, c ≠ NUL)
    (hno : ∀ k, k < reg.clientCount → identity reg k ≠ (X, D1))
    (hsome : ∃ k, k < reg.clientCount ∧ reg.clientCampus k = X) :
    ∃ k, k < reg.clientCount ∧ reg.clientCampus k = X ∧
      (∀ j, j < k → reg.clientCampus j ≠ X) ∧
      clientHandlerRead tz reg index sock (routingLine X D1 m) =
        (reg, [Ev.lock,
               Ev.send (reg.tcpSockets k) (snprintf MAX_MSG
                 (forwardText (reg.clientCampus index) (reg.clientDept index) X D1 m)),
               Ev.unlock], false) ∧
      sendsOf (clientHandlerRead tz reg index sock (routingLine X D1 m)).2.1 =
        [(reg.tcpSockets k, snprintf MAX_MSG
          (forwardText (reg.clientCampus index) (reg.clientDept index) X D1 m))] := by
  have hexact : findClientByCampusAndDept reg X D1 = none :=
    (findClientByCampusAndDept_none_iff reg X D1).mpr hno
  cases hcamp : findClientByCampus reg X with
  | none =>
    obtain ⟨k, hk, hkX⟩ := hsome
    exact absurd hkX ((findClientByCampus_none_iff reg X).mp hcamp k hk)
  | some k =>
    obtain ⟨hk, hkX, hkfirst⟩ := (findClientByCampus_some_iff reg X k).mp hcamp
    have hline : clientHandlerLine tz reg index sock (routingLine X D1 m) =
        (reg, [Ev.lock,
               Ev.send (reg.tcpSockets k) (snprintf MAX_MSG
                 (forwardText (reg.clientCampus index) (reg.clientDept index) X D1 m)),
               Ev.unlock]) := by
      unfold clientHandlerLine
      rw [if_neg (routingLine_ne_listRequest X D1 m),
        parseRouting_routingLine X D1 m hX hD hXc hDc]
      simp only [route, hexact, hcamp]
    have hread := clientHandlerRead_of_text tz reg index sock (routingLine X D1 m)
      (routingLine_ne_nil X D1 m) hlen hnul
    rw [hline] at hread
    refine ⟨k, hk, hkX, hkfirst, hread, ?_⟩
    rw [hread]
    rfl

/-- Witness for C3: (Lahore, CS) is gone, the line for it reaches (Lahore, EE). -/
theorem C3_fallback_routing_to_first_of_campus_witness :
    ∃ k, k < (run 0 freshExample).reg.clientCount ∧
      (run 0 freshExample).reg.clientCampus k = "Lahore".toList ∧
      (∀ j, j < k → (run 0 freshExample).reg.clientCampus j ≠ "Lahore".toList) ∧
      clientHandlerRead 0 (run 0 freshExample).reg 1 6
          (routingLine "Lahore".toList "CS".toList "hello".toList) =
        ((run 0 freshExample).reg, [Ev.lock,
               Ev.send ((run 0 freshExample).reg.tcpSockets k) (snprintf MAX_MSG
                 (forwardText ((run 0 freshExample).reg.clientCampus 1)
                   ((run 0 freshExample).reg.clientDept 1) "Lahore".toList "CS".toList
                   "hello".toList)),
               Ev.unlock], false) ∧
      sendsOf (clientHandlerRead 0 (run 0 freshExample).reg 1 6
          (routingLine "Lahore".toList "CS".toList "hello".toList)).2.1 =
        [((run 0 freshExample).reg.tcpSockets k, snprintf MAX_MSG
          (forwardText ((run 0 freshExample).reg.clientCampus 1)
            ((run 0 freshExample).reg.clientDept 1) "Lahore".toList "CS".toList
            "hello".toList))] :=
  C3_fallback_routing_to_first_of_campus 0 (run 0 freshExample).reg 1 6
    "Lahore".toList "CS".toList "hello".toList (by decide) (by decide) (by decide) (by decide)
    (by decide) (by decide) (by decide) ⟨0, by decide, by decide⟩

/-! ## C4: unreachable campus -/

/-- C4, refuted as stated: with only (Lahore, CS) registered, no session has the
campus `a..a` (40 times `a`); the line `<40 times a>,D,m` is answered with a
not-connected reply that names the first 39 characters only, which is not the
text `[SERVER] Target campus <40 times a> not connected.`. -/
theorem C4_long_campus_reply_truncated :
    (∀ k, k < (run 0 [Event.connect 4 "Lahore:CS:NU-LHR-123".toList]).reg.clientCount →
      (run 0 [Event.connect 4 "Lahore:CS:NU-LHR-123".toList]).reg.clientCampus k
        ≠ List.replicate 40 'a') ∧
    sendsOf (step 0 (run 0 [Event.connect 4 "Lahore:CS:NU-LHR-123".toList])
        (Event.recv 0 (routingLine (List.replicate 40 'a') "D".toList "m".toList))).2
      = [(4, notConnectedText (List.replicate 39 'a'))] ∧
    sendsOf (step 0 (run 0 [Event.connect 4 "Lahore:CS:NU-LHR-123".toList])
        (Event.recv 0 (routingLine (List.replicate 40 'a') "D".toList "m".toList))).2
      ≠ [(4, notConnectedText (List.replicate 40 'a'))] := by
  refine ⟨by decide, by decide, by decide⟩

/-- The first field of a line is found whatever follows the second comma-free split. -/
theorem parseRouting_campus (c d m : CStr) (hc : c.length < MAX_NAME) (hcc : ',' ∉ c) :
    ∃ d2 m2, parseRouting (routingLine c d m) = some (c, d2, m2) := by
  unfold parseRouting routingLine
  rw [strchr_append c _ ',' hcc]
  simp only [drop_append_cons_length]
  cases h2 : strchr (d ++ ',' :: m) ',' with
  | none =>
    have := (strchr_none_iff _ _).mp h2
    simp at this
  | some p2 =>
    simp only [clampName_of_lt _ hc, strncpy, take_append_length]
    exact ⟨_, _, rfl⟩

/-- C4, amended: let `Y` be shorter than 40 characters and free of commas, and
let the line `Y,D,m` be text (no NUL byte) shorter than 1024 characters, so
that one `read` of the reader delivers it whole. In every registry where no
registered slot has campus `Y`, the iteration of the reader holding `index`
and `sock` that reads this line performs exactly one send, to `sock`, with
text `[SERVER] Target campus Y not connected.`, leaves the registry unchanged
and keeps the reader running. -/
theorem C4_unreachable_campus_reply (tz : Int) (reg : Registry) (index : Nat) (sock : Int)
    (Y D m : CStr) (hY : Y.length < MAX_NAME) (hYc : ',' ∉ Y)
    (hlen : (routingLine Y D m).length < MAX_MSG)
    (hnul : ∀ c ∈ routingLine Y D m, c ≠ NUL)
    (hno : ∀ k, k < reg.clientCount → reg.clientCampus k ≠ Y) :
    clientHandlerRead tz reg index sock (routingLine Y D m) =
      (reg, [Ev.lock, Ev.send sock (notConnectedText Y), Ev.unlock], false) ∧
    sendsOf (clientHandlerRead tz reg index sock (routingLine Y D m)).2.1 =
      [(sock, "[SERVER] Target campus ".toList ++ Y ++ " not connected.".toList)] := by
  have hcamp : findClientByCampus reg Y = none := (findClientByCampus_none_iff reg Y).mpr hno
  have hexact : ∀ d2, findClientByCampusAndDept reg Y d2 = none := by
    intro d2
    rw [findClientByCampusAndDept_none_iff]
    intro k hk he
    simp only [identity, Prod.mk.injEq] at he
    exact hno k hk he.1
  obtain ⟨d2, m2, hparse⟩ := parseRouting_campus Y D m hY hYc
  have hlen2 : (notConnectedText Y).length < MAX_MSG := by
    simp only [notConnectedText, List.length_append]
    unfold MAX_NAME at hY
    unfold MAX_MSG
    have h1 : "[SERVER] Target campus ".toList.length = 23 := by decide
    have h2 : " not connected.".toList.length = 15 := by decide
    omega
  have hline : clientHandlerLine tz reg index sock (routingLine Y D m) =
      (reg, [Ev.lock, Ev.send sock (notConnectedText Y), Ev.unlock]) := by
    unfold clientHandlerLine
    rw [if_neg (routingLine_ne_listRequest Y D m), hparse]
    simp only [route, hexact d2, hcamp, snprintf_of_length_lt _ _ hlen2]
  have hread := clientHandlerRead_of_text tz reg index sock (routingLine Y D m)
    (routingLine_ne_nil Y D m) hlen hnul
  rw [hline] at hread
  refine ⟨hread, ?_⟩
  rw [hread]
  rfl

/-- Witness for C4: no Multan session is registered. -/
theorem C4_unreachable_campus_reply_witness :
    sendsOf (clientHandlerRead 0 (run 0 freshExample).reg 0 5
        (routingLine "Multan".toList "CS".toList "are you there, Multan?".toList)).2.1 =
      [(5, "[SERVER] Target campus Multan not connected.".toList)] :=
  (C4_unreachable_campus_reply 0 (run 0 freshExample).reg 0 5 "Multan".toList "CS".toList
    "are you there, Multan?".toList (by decide) (by decide) (by decide) (by decide)
    (by decide)).2

/-! ## C5: disconnection -/

/-- C5 at its failing input: after `staleSetup` the registry holds Karachi in
slot 0 and Multan in slot 1 (identities pairwise distinct), and the Karachi
reader (socket 5) still holds the index 1 it was started with. When that reader
sees end-of-stream, the removal runs for index 1: Karachi stays registered in
slot 0, still on the closed socket 5, Multan is no longer found, although the
Multan reader is the one left alive. -/
theorem C5_stale_index_removes_other_session :
    PairsDistinct (run 0 staleSetup).reg ∧
    (run 0 staleSetup).reg.clientCount = 2 ∧
    findClientByCampusAndDept (run 0 staleSetup).reg "Karachi".toList "CS".toList = some 0 ∧
    findClientByCampusAndDept (run 0 staleSetup).reg "Multan".toList "CS".toList = some 1 ∧
    (run 0 staleSetup).handlers = [⟨1, 5⟩, ⟨2, 6⟩] ∧
    (step 0 (run 0 staleSetup) (Event.recv 0 [])).2 = [Ev.close 5, Ev.lock, Ev.unlock] ∧
    (step 0 (run 0 staleSetup) (Event.recv 0 [])).1.handlers = [⟨2, 6⟩] ∧
    (step 0 (run 0 staleSetup) (Event.recv 0 [])).1.reg.clientCount = 1 ∧
    findClientByCampusAndDept (step 0 (run 0 staleSetup) (Event.recv 0 [])).1.reg
      "Karachi".toList "CS".toList = some 0 ∧
    (step 0 (run 0 staleSetup) (Event.recv 0 [])).1.reg.tcpSockets 0 = 5 ∧
    findClientByCampusAndDept (step 0 (run 0 staleSetup) (Event.recv 0 [])).1.reg
      "Multan".toList "CS".toList = none ∧
    listMsg 0 (step 0 (run 0 staleSetup) (Event.recv 0 [])).1.reg =
      ("[SERVER] Connected Campuses:\n" ++ "  1. Karachi - CS (Last seen: never)\n"
        ++ "----------------------------\n").toList := by
  refine ⟨by decide, by decide, by decide, by decide, by decide, by decide, by decide,
    by decide, by decide, by decide, by decide, by decide⟩

/-! ## C6: capacity -/

theorem slot_register_of_ne (reg : Registry) (sock : Int) (campus dept : CStr) (k : Nat)
    (h : k ≠ reg.clientCount) : slot (register reg sock campus dept) k = slot reg k := by
  simp [slot, register, Function.update_noteq h]

/-- C6: for a handshake line that parses and passes the credential check, a
registry holding `MAX_CLIENTS` (or more) sessions answers `SERVER_FULL`, closes
the connection, starts no reader and is returned unchanged; a registry holding
fewer answers `AUTH_OK`, raises `clientCount` by one, stores the socket and the
identity in the new slot with `udpKnown = 0` and `lastSeen = 0`, and leaves
every other slot as it was. -/
theorem C6_capacity_gate (reg : Registry) (sock : Int) (buf campus dept pass : CStr)
    (hparse : parseHandshake buf = some (campus, dept, pass))
    (hauth : authenticate campus pass = true) :
    (MAX_CLIENTS ≤ reg.clientCount →
      handshake reg sock buf =
        (reg, [Ev.lock, Ev.unlock, Ev.send sock "SERVER_FULL".toList, Ev.close sock], none)) ∧
    (reg.clientCount < MAX_CLIENTS →
      sendsOf (handshake reg sock buf).2.1 = [(sock, "AUTH_OK".toList)] ∧
      (handshake reg sock buf).2.2 = some reg.clientCount ∧
      (handshake reg sock buf).1.clientCount = reg.clientCount + 1 ∧
      slot (handshake reg sock buf).1 reg.clientCount =
        (sock, campus, dept, reg.udpAddr reg.clientCount, 0, 0) ∧
      ∀ k, k ≠ reg.clientCount → slot (handshake reg sock buf).1 k = slot reg k) := by
  obtain ⟨hc, hd⟩ := parseHandshake_lengths buf campus dept pass hparse
  constructor
  · intro hfull
    unfold handshake
    simp only [hparse, hauth, Bool.not_true, Bool.false_eq_true, if_false, ge_iff_le, hfull,
      if_true]
    rfl
  · intro hroom
    have hnot : ¬ (reg.clientCount ≥ MAX_CLIENTS) := by omega
    have hval : handshake reg sock buf =
        (register reg sock campus dept,
          [Ev.lock, Ev.unlock, Ev.send sock ("AUTH_OK".toList.take 7)], some reg.clientCount) := by
      unfold handshake
      simp only [hparse, hauth, Bool.not_true, Bool.false_eq_true, if_false, hnot]
    rw [hval]
    refine ⟨rfl, rfl, rfl, ?_, fun k hk => slot_register_of_ne reg sock campus dept k hk⟩
    simp [slot, register, strncpy_of_length_le _ _ hc, strncpy_of_length_le _ _ hd]

/-- Witness for C6: a valid handshake against a full and against a part-filled registry. -/
theorem C6_capacity_gate_witness :
    (run 0 fullHouse).reg.clientCount = 10 ∧
    sendsOf (handshake (run 0 fullHouse).reg 14 "Karachi:CS:NU-KHI-123".toList).2.1
      = [(14, "SERVER_FULL".toList)] ∧
    (handshake (run 0 fullHouse).reg 14 "Karachi:CS:NU-KHI-123".toList).1.clientCount = 10 ∧
    sendsOf (handshake (run 0 freshExample).reg 14 "Karachi:CS:NU-KHI-123".toList).2.1
      = [(14, "AUTH_OK".toList)] ∧
    (handshake (run 0 freshExample).reg 14 "Karachi:CS:NU-KHI-123".toList).1.clientCount = 3 := by
  have hfull := (C6_capacity_gate (run 0 fullHouse).reg 14 "Karachi:CS:NU-KHI-123".toList
    "Karachi".toList "CS".toList "NU-KHI-123".toList (by decide) (by decide)).1 (by decide)
  have hroom := (C6_capacity_gate (run 0 freshExample).reg 14 "Karachi:CS:NU-KHI-123".toList
    "Karachi".toList "CS".toList "NU-KHI-123".toList (by decide) (by decide)).2 (by decide)
  refine ⟨by decide, ?_, ?_, hroom.1, ?_⟩
  · rw [hfull]; rfl
  · rw [hfull]; decide
  · rw [hroom.2.2.1]; decide

/-! ## C7: liveness round-trip -/

theorem parseHeartbeat_heartbeatLine (c d : CStr) (hc : c.length < MAX_NAME)
    (hd : d.length < MAX_NAME) (hcp : '|' ∉ c) :
    parseHeartbeat (heartbeatLine c d) = (c, d) := by
  unfold parseHeartbeat heartbeatLine
  rw [strchr_append c _ '|' hcp]
  simp only [drop_append_cons_length, clampName_of_lt _ hc, strncpy, take_append_length]
  rw [List.take_of_length_le (by unfold MAX_NAME at hd ⊢; omega)]

theorem strftimeHMS_length (tz t : Int) : (strftimeHMS tz t).length = 8 := by
  simp [strftimeHMS, twoDigits]

theorem strftimeHMS_ne_never (tz t : Int) : strftimeHMS tz t ≠ "never".toList := by
  intro h
  have h1 := congrArg List.length h
  rw [strftimeHMS_length] at h1
  revert h1
  decide

theorem repr_succ_length_le : ∀ i, i < 10 → (Nat.repr (i + 1)).toList.length ≤ 2 := by
  decide

theorem validCampus_length_le : ∀ c ∈ validCreds.map Cred.campus, c.length ≤ 8 := by
  decide

theorem listEntry_infix_listEntries (tz : Int) (reg : Registry) (n : Nat) : ∀ start i,
    start ≤ i → i < start + n → listEntry tz reg i <:+: listEntries tz reg start n := by
  induction n with
  | zero => intro start i h1 h2; omega
  | succ n ih =>
    intro start i h1 h2
    simp only [listEntries]
    by_cases h : i = start
    · subst h
      exact (List.prefix_append _ _).isInfix
    · exact (ih (start + 1) i (by omega) (by omega)).trans (List.suffix_append _ _).isInfix

theorem listEntry_infix_listMsg (tz : Int) (reg : Registry) (i : Nat)
    (hi : i < reg.clientCount) : listEntry tz reg i <:+: listMsg tz reg := by
  unfold listMsg
  have hne : reg.clientCount ≠ 0 := by omega
  rw [if_neg hne]
  have h := listEntry_infix_listEntries tz reg reg.clientCount 0 i (Nat.zero_le _) (by omega)
  exact (h.trans (List.suffix_append _ _).isInfix).trans (List.prefix_append _ _).isInfix

/-- C7: in a registry with pairwise distinct identities whose registered slot
`i` has identity `(X, D1)` (both shorter than 40 characters, no `|` in `X`),
the datagram `X|D1` received from `a` at time `t` sets `lastSeen[i] = t`,
`udpAddr[i] = a` and `udpKnown[i] = 1`; the count, all sockets, campuses and
departments, and the liveness cells of every other slot stay as they were.
In a listing produced afterwards the entry of slot `i` is part of the text
sent, and its last-seen field is the `HH:MM:SS` form of `t`, not `never`. -/
theorem C7_heartbeat_round_trip (tz : Int) (reg : Registry) (i : Nat) (X D1 : CStr)
    (a : SockAddr) (t : Int) (sock : Int)
    (hi : i < reg.clientCount) (hid : identity reg i = (X, D1))
    (hdist : PairsDistinct reg)
    (hX : X.length < MAX_NAME) (hD : D1.length < MAX_NAME) (hXp : '|' ∉ X) :
    (udpListenerDatagram reg (heartbeatLine X D1) a t).1.lastSeen i = t ∧
    (udpListenerDatagram reg (heartbeatLine X D1) a t).1.udpAddr i = a ∧
    (udpListenerDatagram reg (heartbeatLine X D1) a t).1.udpKnown i = 1 ∧
    (udpListenerDatagram reg (heartbeatLine X D1) a t).1.clientCount = reg.clientCount ∧
    (udpListenerDatagram reg (heartbeatLine X D1) a t).1.tcpSockets = reg.tcpSockets ∧
    (udpListenerDatagram reg (heartbeatLine X D1) a t).1.clientCampus = reg.clientCampus ∧
    (udpListenerDatagram reg (heartbeatLine X D1) a t).1.clientDept = reg.clientDept ∧
    (∀ j, j ≠ i →
      slot (udpListenerDatagram reg (heartbeatLine X D1) a t).1 j = slot reg j) ∧
    tsbuf tz (udpListenerDatagram reg (heartbeatLine X D1) a t).1 i = strftimeHMS tz t ∧
    tsbuf tz (udpListenerDatagram reg (heartbeatLine X D1) a t).1 i ≠ "never".toList ∧
    listEntry tz (udpListenerDatagram reg (heartbeatLine X D1) a t).1 i =
      snprintf 100 ("  ".toList ++ (Nat.repr (i + 1)).toList ++ ". ".toList ++ X
        ++ " - ".toList ++ D1 ++ " (Last seen: ".toList ++ strftimeHMS tz t ++ ")\n".toList) ∧
    (∃ text, sendsOf (handleListRequest tz
        (udpListenerDatagram reg (heartbeatLine X D1) a t).1 sock) = [(sock, text)] ∧
      listEntry tz (udpListenerDatagram reg (heartbeatLine X D1) a t).1 i <:+: text) ∧
    (reg.clientCount ≤ MAX_CLIENTS → X ∈ validCreds.map Cred.campus →
      listEntry tz (udpListenerDatagram reg (heartbeatLine X D1) a t).1 i =
        "  ".toList ++ (Nat.repr (i + 1)).toList ++ ". ".toList ++ X
          ++ " - ".toList ++ D1 ++ " (Last seen: ".toList ++ strftimeHMS tz t
          ++ ")\n".toList) := by
  have hfind : findClientByCampusAndDept reg X D1 = some i := by
    rw [findClientByCampusAndDept_some_iff]
    refine ⟨hi, hid, fun j hj => ?_⟩
    rw [← hid]
    exact hdist j (by omega) i hi (by omega)
  have hval : (udpListenerDatagram reg (heartbeatLine X D1) a t).1 = touch reg i a t := by
    unfold udpListenerDatagram
    simp only [parseHeartbeat_heartbeatLine X D1 hX hD hXp, hfind]
  rw [hval]
  have hts : tsbuf tz (touch reg i a t) i = strftimeHMS tz t := by
    simp [tsbuf, touch]
  simp only [identity, Prod.mk.injEq] at hid
  have hentry : listEntry tz (touch reg i a t) i =
      snprintf 100 ("  ".toList ++ (Nat.repr (i + 1)).toList ++ ". ".toList ++ X
        ++ " - ".toList ++ D1 ++ " (Last seen: ".toList ++ strftimeHMS tz t
        ++ ")\n".toList) := by
    simp only [listEntry, entryText, hts]
    have h1 : (touch reg i a t).clientCampus i = X := hid.1
    have h2 : (touch reg i a t).clientDept i = D1 := hid.2
    rw [h1, h2]
  refine ⟨by simp [touch], by simp [touch], by simp [touch], rfl, rfl, rfl, rfl, ?_, hts, ?_,
    hentry, ?_, ?_⟩
  · intro j hj
    simp [slot, touch, Function.update_noteq hj]
  · rw [hts]; exact strftimeHMS_ne_never tz t
  · exact ⟨listMsg tz (touch reg i a t), rfl, listEntry_infix_listMsg tz _ i hi⟩
  · intro hcap hcampus
    rw [hentry]
    apply snprintf_of_length_lt
    have hdig : (Nat.repr (i + 1)).toList.length ≤ 2 :=
      repr_succ_length_le i (by unfold MAX_CLIENTS at hcap; omega)
    have hXlen : X.length ≤ 8 := validCampus_length_le X hcampus
    simp only [List.length_append, strftimeHMS_length]
    have e1 : "  ".toList.length = 2 := by decide
    have e2 : ". ".toList.length = 2 := by decide
    have e3 : " - ".toList.length = 3 := by decide
    have e4 : " (Last seen: ".toList.length = 13 := by decide
    have e5 : ")\n".toList.length = 2 := by decide
    unfold MAX_NAME at hD
    omega

/-- Witness for C7: a heartbeat of (Karachi, CS) at second 3725 is listed as 01:02:05. -/
theorem C7_heartbeat_round_trip_witness :
    (udpListenerDatagram (run 0 freshExample).reg (heartbeatLine "Karachi".toList "CS".toList)
        ⟨9, 7001⟩ 3725).1.lastSeen 1 = 3725 ∧
    (udpListenerDatagram (run 0 freshExample).reg (heartbeatLine "Karachi".toList "CS".toList)
        ⟨9, 7001⟩ 3725).1.udpAddr 1 = ⟨9, 7001⟩ ∧
    listEntry 0 (udpListenerDatagram (run 0 freshExample).reg
        (heartbeatLine "Karachi".toList "CS".toList) ⟨9, 7001⟩ 3725).1 1 =
      "  2. Karachi - CS (Last seen: 01:02:05)\n".toList := by
  have h := C7_heartbeat_round_trip 0 (run 0 freshExample).reg 1 "Karachi".toList "CS".toList
    ⟨9, 7001⟩ 3725 6 (by decide) (by decide) (by decide) (by decide) (by decide) (by decide)
  refine ⟨h.1, h.2.1, ?_⟩
  rw [h.2.2.2.2.2.2.2.2.2.2.2.2 (by decide) (by decide)]
  decide

/-! ## Handshake parsing -/

theorem take_length_takeWhile (p : Char → Bool) (l : CStr) :
    l.take (l.takeWhile p).length = l.takeWhile p := by
  induction l with
  | nil => rfl
  | cons x xs ih =>
    by_cases h : p x = true
    · simp [List.takeWhile_cons, h, ih]
    · simp [List.takeWhile_cons, h]

theorem takeWhile_take (p : Char → Bool) (n : Nat) : ∀ l : CStr,
    (l.take n).takeWhile p = (l.takeWhile p).take n := by
  induction n with
  | zero => intro l; simp
  | succ n ih =>
    intro l
    cases l with
    | nil => simp
    | cons x xs =>
      by_cases h : p x = true
      · simp [List.takeWhile_cons, h, ih]
      · simp [List.takeWhile_cons, h]

theorem take_clampName (s t : CStr) :
    strncpy (s ++ t) (clampName s.length) = s.take (MAX_NAME - 1) := by
  unfold strncpy clampName
  split_ifs with h
  · exact List.take_append_of_le_length (by omega)
  · rw [take_append_length, List.take_of_length_le (by omega)]

/-- A line with two colons is split into the first 39 characters of each of
its first two fields and the first 39 characters of its password field. -/
theorem parseHandshake_handshakeLine (c d rest : CStr) (hc : ':' ∉ c) (hd : ':' ∉ d) :
    parseHandshake (handshakeLine c d rest) =
      some (c.take (MAX_NAME - 1), d.take (MAX_NAME - 1),
        (passwordField rest).take (MAX_NAME - 1)) := by
  unfold parseHandshake handshakeLine
  rw [strchr_append c _ ':' hc]
  simp only [drop_append_cons_length]
  rw [strchr_append d _ ':' hd]
  simp only [drop_append_cons_length, take_clampName]
  simp only [strcspn, take_length_takeWhile]
  simp only [strncpy, takeWhile_take, passwordField]

theorem mem_split_first (s : CStr) (x : Char) (h : x ∈ s) :
    ∃ a b, x ∉ a ∧ s = a ++ x :: b := by
  cases hs : strchr s x with
  | none => exact absurd h ((strchr_none_iff s x).mp hs)
  | some k =>
    obtain ⟨h1, h2⟩ := strchr_some s x k hs
    exact ⟨s.take k, s.drop (k + 1), h2, h1⟩

/-- Every line with at least two occurrences of `x` splits at the first two. -/
theorem two_separators_split (s : CStr) (x : Char) (h : 2 ≤ s.count x) :
    ∃ a b rest, x ∉ a ∧ x ∉ b ∧ s = a ++ x :: (b ++ x :: rest) := by
  have hmem : x ∈ s := List.count_pos_iff.mp (by omega)
  obtain ⟨a, t, ha, rfl⟩ := mem_split_first s x hmem
  have hcount : 1 ≤ t.count x := by
    have h0 : a.count x = 0 := List.count_eq_zero.mpr ha
    rw [List.count_append, List.count_cons_self, h0] at h
    omega
  have hmem2 : x ∈ t := List.count_pos_iff.mp (by omega)
  obtain ⟨b, rest, hb, rfl⟩ := mem_split_first t x hmem2
  exact ⟨a, b, rest, ha, hb, rfl⟩

theorem authenticate_iff (campus pass : CStr) :
    authenticate campus pass = true ↔ (⟨campus, pass⟩ : Cred) ∈ validCreds := by
  unfold authenticate
  rw [List.any_eq_true]
  constructor
  · rintro ⟨cr, hmem, heq⟩
    simp only [Bool.and_eq_true, beq_iff_eq] at heq
    obtain ⟨campus0, pass0⟩ := cr
    simp only at heq
    rw [← heq.1, ← heq.2]
    exact hmem
  · intro h
    exact ⟨⟨campus, pass⟩, h, by simp⟩

theorem validCreds_short : ∀ cr ∈ validCreds,
    cr.campus.length < MAX_NAME - 1 ∧ cr.password.length < MAX_NAME - 1 := by
  decide

theorem take_eq_iff_of_short (x y : CStr) (n : Nat) (hy : y.length < n) :
    x.take n = y ↔ x = y := by
  constructor
  · intro h
    have hl := congrArg List.length h
    rw [List.length_take] at hl
    have hx : x.length ≤ n := by omega
    rw [List.take_of_length_le hx] at h
    exact h
  · intro h
    subst h
    exact List.take_of_length_le (by omega)

/-- The 39-character cut of campus and password never changes the verdict:
every table entry is shorter than 39 characters. -/
theorem authenticate_take (campus pass : CStr) :
    authenticate (campus.take (MAX_NAME - 1)) (pass.take (MAX_NAME - 1)) =
      authenticate campus pass := by
  rw [Bool.eq_iff_iff, authenticate_iff, authenticate_iff]
  constructor
  · intro h
    obtain ⟨h1, h2⟩ := validCreds_short _ h
    simp only at h1 h2
    have e1 : campus.take (MAX_NAME - 1) = campus :=
      ((take_eq_iff_of_short campus _ _ h1).mp rfl).symm
    have e2 : pass.take (MAX_NAME - 1) = pass :=
      ((take_eq_iff_of_short pass _ _ h2).mp rfl).symm
    rw [e1, e2] at h
    exact h
  · intro h
    obtain ⟨h1, h2⟩ := validCreds_short _ h
    simp only at h1 h2
    rw [List.take_of_length_le (by omega), List.take_of_length_le (by omega)]
    exact h

theorem authenticate_lengths (campus pass : CStr) (h : authenticate campus pass = true) :
    campus.length < MAX_NAME - 1 ∧ pass.length < MAX_NAME - 1 :=
  validCreds_short _ ((authenticate_iff campus pass).mp h)

/-- The three outcomes of a handshake line with two colons. -/
theorem handshake_handshakeLine (reg : Registry) (sock : Int) (c d rest : CStr)
    (hc : ':' ∉ c) (hd : ':' ∉ d) :
    handshake reg sock (handshakeLine c d rest) =
      if authenticate c (passwordField rest) = false then
        (reg, [Ev.send sock "AUTH_FAILED".toList, Ev.close sock], none)
      else if reg.clientCount ≥ MAX_CLIENTS then
        (reg, [Ev.lock, Ev.unlock, Ev.send sock "SERVER_FULL".toList, Ev.close sock], none)
      else
        (register reg sock c (d.take (MAX_NAME - 1)),
          [Ev.lock, Ev.unlock, Ev.send sock "AUTH_OK".toList], some reg.clientCount) := by
  unfold handshake
  rw [parseHandshake_handshakeLine c d rest hc hd]
  simp only [authenticate_take]
  cases hauth : authenticate c (passwordField rest) with
  | false => simp
  | true =>
    have hlen := (authenticate_lengths _ _ hauth).1
    have e : c.take (MAX_NAME - 1) = c := List.take_of_length_le (by omega)
    simp only [Bool.not_true, Bool.false_eq_true, if_false, Bool.true_eq_false, e]
    split_ifs with hfull
    · rfl
    · rfl

/-! ## C8: oversized handshake fields -/

/-- C8, refuted as stated: the handshake `Lahore:<40 times x>:NU-LHR-123` has two
colons and a department field of 40 characters; it is answered `AUTH_OK`, not
`BAD_FORMAT`, and the session is registered under the department made of the
first 39 characters of the field. -/
theorem C8_oversized_department_registered_truncated :
    sendsOf (handshake Registry.empty 4
        (handshakeLine "Lahore".toList (List.replicate 40 'x') "NU-LHR-123".toList)).2.1
      = [(4, "AUTH_OK".toList)] ∧
    (handshake Registry.empty 4
        (handshakeLine "Lahore".toList (List.replicate 40 'x') "NU-LHR-123".toList)).1.clientCount
      = 1 ∧
    identity (handshake Registry.empty 4
        (handshakeLine "Lahore".toList (List.replicate 40 'x') "NU-LHR-123".toList)).1 0
      = ("Lahore".toList, List.replicate 39 'x') ∧
    List.replicate 39 'x' ≠ List.replicate 40 'x' ∧
    List.replicate 39 'x' <+: List.replicate 40 'x' := by
  refine ⟨by decide, by decide, by decide, by decide, ⟨['x'], by decide⟩⟩

/-- C8, amended: let the handshake line `c:d:rest` (two colons delimiting `c`
and `d`) be text (no NUL byte) that fits the 255-byte read. The accept loop
never answers it with `BAD_FORMAT`. If the campus field or the password field
(the text after the second colon up to the first newline) is longer than 39
characters, the credential check fails: the reply is `AUTH_FAILED`, the
connection is closed and the registry is unchanged. If the credentials are
valid and a slot is free, the session is registered under the first 39
characters of the department field, however long that field is, and the reply
is `AUTH_OK`. -/
theorem C8_oversized_fields_truncated (reg : Registry) (sock : Int) (c d rest : CStr)
    (hc : ':' ∉ c) (hd : ':' ∉ d)
    (hlen : (handshakeLine c d rest).length < 256)
    (hnul : ∀ x ∈ handshakeLine c d rest, x ≠ NUL) :
    (sock, badFormat.take 35) ∉ sendsOf (acceptClient reg sock (handshakeLine c d rest)).2.1 ∧
    (MAX_NAME - 1 < c.length ∨ MAX_NAME - 1 < (passwordField rest).length →
      acceptClient reg sock (handshakeLine c d rest) =
        (reg, [Ev.send sock "AUTH_FAILED".toList, Ev.close sock], none)) ∧
    (authenticate c (passwordField rest) = true → reg.clientCount < MAX_CLIENTS →
      acceptClient reg sock (handshakeLine c d rest) =
        (register reg sock c (d.take (MAX_NAME - 1)),
          [Ev.lock, Ev.unlock, Ev.send sock "AUTH_OK".toList], some reg.clientCount) ∧
      identity (acceptClient reg sock (handshakeLine c d rest)).1 reg.clientCount =
        (c, d.take (MAX_NAME - 1))) := by
  rw [acceptClient_of_text reg sock (handshakeLine c d rest) (handshakeLine_ne_nil c d rest)
    hlen hnul]
  have hval := handshake_handshakeLine reg sock c d rest hc hd
  refine ⟨?_, ?_, ?_⟩
  · rw [hval]
    have hne1 : badFormat.take 35 ≠ "AUTH_FAILED".toList := by decide
    have hne2 : badFormat.take 35 ≠ "SERVER_FULL".toList := by decide
    have hne3 : badFormat.take 35 ≠ "AUTH_OK".toList := by decide
    split_ifs
    · simp only [sendsOf, List.mem_singleton, Prod.mk.injEq]
      exact fun h => hne1 h.2
    · simp only [sendsOf, List.mem_singleton, Prod.mk.injEq]
      exact fun h => hne2 h.2
    · simp only [sendsOf, List.mem_singleton, Prod.mk.injEq]
      exact fun h => hne3 h.2
  · intro hlong
    have hfail : authenticate c (passwordField rest) = false := by
      by_contra hne
      have ht : authenticate c (passwordField rest) = true := by simpa using hne
      obtain ⟨h1, h2⟩ := authenticate_lengths _ _ ht
      omega
    rw [hval, if_pos hfail]
  · intro hauth hroom
    have hnot : ¬ (reg.clientCount ≥ MAX_CLIENTS) := by omega
    have hlen := (authenticate_lengths _ _ hauth).1
    have hv : handshake reg sock (handshakeLine c d rest) =
        (register reg sock c (d.take (MAX_NAME - 1)),
          [Ev.lock, Ev.unlock, Ev.send sock "AUTH_OK".toList], some reg.clientCount) := by
      rw [hval, if_neg (by simp [hauth]), if_neg hnot]
    refine ⟨hv, ?_⟩
    rw [hv, identity_register, if_pos rfl, strncpy_of_length_le c _ (by omega), strncpy,
      List.take_take, min_self]

/-- Witness for C8: an oversized campus fails the check, an oversized department is cut. -/
theorem C8_oversized_fields_truncated_witness :
    acceptClient Registry.empty 4
        (handshakeLine (List.replicate 40 'L') "CS".toList "NU-LHR-123".toList) =
      (Registry.empty, [Ev.send 4 "AUTH_FAILED".toList, Ev.close 4], none) ∧
    identity (acceptClient Registry.empty 4
        (handshakeLine "Karachi".toList (List.replicate 50 'y') "NU-KHI-123\n".toList)).1 0 =
      ("Karachi".toList, List.replicate 39 'y') :=
  ⟨(C8_oversized_fields_truncated Registry.empty 4 (List.replicate 40 'L') "CS".toList
      "NU-LHR-123".toList (by decide) (by decide) (by decide) (by decide)).2.1
      (Or.inl (by decide)),
   ((C8_oversized_fields_truncated Registry.empty 4 "Karachi".toList (List.replicate 50 'y')
      "NU-KHI-123\n".toList (by decide) (by decide) (by decide) (by decide)).2.2
      (by decide) (by decide)).2⟩

/-! ## C9: authentication gate -/

/-- C9: for a handshake line `c:d:rest` (the first two colons delimit `c` and
`d`), the reply is not `AUTH_FAILED` exactly when `c` and the text of `rest` up
to the first newline are the campus and the password of one row of the
credential table. Replacing the department by any other colon-free text gives
the same verdict. When the check fails the registry is returned unchanged, and
when it passes the registry is the one the capacity gate and the registration
produce: the check itself writes nothing. -/
theorem C9_authentication_gate (reg : Registry) (sock : Int) (c d rest : CStr)
    (hc : ':' ∉ c) (hd : ':' ∉ d) :
    ((sock, "AUTH_FAILED".toList) ∉ sendsOf (handshake reg sock (handshakeLine c d rest)).2.1
      ↔ (⟨c, passwordField rest⟩ : Cred) ∈ validCreds) ∧
    (∀ d2, ':' ∉ d2 →
      ((sock, "AUTH_FAILED".toList) ∈ sendsOf (handshake reg sock (handshakeLine c d2 rest)).2.1
        ↔ (sock, "AUTH_FAILED".toList) ∈
            sendsOf (handshake reg sock (handshakeLine c d rest)).2.1)) ∧
    ((sock, "AUTH_FAILED".toList) ∈ sendsOf (handshake reg sock (handshakeLine c d rest)).2.1 →
      (handshake reg sock (handshakeLine c d rest)).1 = reg) ∧
    ((sock, "AUTH_FAILED".toList) ∉ sendsOf (handshake reg sock (handshakeLine c d rest)).2.1 →
      (handshake reg sock (handshakeLine c d rest)).1 =
        if reg.clientCount ≥ MAX_CLIENTS then reg
        else register reg sock c (d.take (MAX_NAME - 1))) := by
  have key : ∀ d0, ':' ∉ d0 →
      ((sock, "AUTH_FAILED".toList) ∈ sendsOf (handshake reg sock (handshakeLine c d0 rest)).2.1
        ↔ authenticate c (passwordField rest) = false) := by
    intro d0 hd0
    rw [handshake_handshakeLine reg sock c d0 rest hc hd0]
    have hne1 : "AUTH_FAILED".toList ≠ "SERVER_FULL".toList := by decide
    have hne2 : "AUTH_FAILED".toList ≠ "AUTH_OK".toList := by decide
    cases hauth : authenticate c (passwordField rest) with
    | false => simp [sendsOf]
    | true =>
      simp only [Bool.true_eq_false, if_false]
      split_ifs <;> simp [sendsOf, hne1, hne2]
  refine ⟨?_, ?_, ?_, ?_⟩
  · rw [key d hd, ← authenticate_iff]
    simp
  · intro d2 hd2
    rw [key d2 hd2, key d hd]
  · intro hfail
    have hf := (key d hd).mp hfail
    rw [handshake_handshakeLine reg sock c d rest hc hd, if_pos hf]
  · intro hpass
    have ht : ¬ authenticate c (passwordField rest) = false := fun hf => hpass ((key d hd).mpr hf)
    rw [handshake_handshakeLine reg sock c d rest hc hd, if_neg ht]
    split_ifs <;> rfl

/-- Witness for C9: the Multan password passes, the Lahore password does not. -/
theorem C9_authentication_gate_witness :
    ((4, "AUTH_FAILED".toList) ∉ sendsOf (handshake Registry.empty 4
        (handshakeLine "Multan".toList "CS".toList "NU-MTN-123\nignored".toList)).2.1) ∧
    ((4, "AUTH_FAILED".toList) ∈ sendsOf (handshake Registry.empty 4
        (handshakeLine "Multan".toList "CS".toList "NU-LHR-123".toList)).2.1) :=
  ⟨(C9_authentication_gate Registry.empty 4 "Multan".toList "CS".toList
      "NU-MTN-123\nignored".toList (by decide) (by decide)).1.mpr (by decide),
   by
    have h := (C9_authentication_gate Registry.empty 4 "Multan".toList "CS".toList
      "NU-LHR-123".toList (by decide) (by decide)).1
    by_contra hne
    exact absurd (h.mp hne) (by decide)⟩

/-! ## C10: routing-line parsing -/

theorem parseRouting_none_of_few_commas (buf : CStr) (h : buf.count ',' < 2) :
    parseRouting buf = none := by
  unfold parseRouting
  cases h1 : strchr buf ',' with
  | none => rfl
  | some p1 =>
    simp only
    cases h2 : strchr (buf.drop (p1 + 1)) ',' with
    | none => rfl
    | some p2 =>
      exfalso
      obtain ⟨e1, -⟩ := strchr_some buf ',' p1 h1
      obtain ⟨e2, -⟩ := strchr_some _ ',' p2 h2
      rw [e1, List.count_append, List.count_cons_self, e2, List.count_append,
        List.count_cons_self] at h
      omega

set_option maxRecDepth 100000 in
/-- C10, refuted as stated: the request line `Lahore,EE,<1100 times z>` has two
commas and fields of 6 and 2 characters, and the remainder after its second
comma is 1100 times `z`. The reader's `read` takes 1023 bytes: the message
parsed and routed is 1013 times `z`, not the entire remainder, and the 87
characters left over are read as a request of their own, which is answered
with the format error. -/
theorem C10_long_line_message_cut :
    longRequest = "Lahore".toList ++ ',' :: ("EE".toList ++ ',' :: List.replicate 1100 'z') ∧
    longRequest.length = 1110 ∧
    parseRouting (cstrOfRead MAX_MSG longRequest) =
      some ("Lahore".toList, "EE".toList, List.replicate 1013 'z') ∧
    parseRouting (cstrOfRead MAX_MSG longRequest) ≠
      some ("Lahore".toList, "EE".toList, List.replicate 1100 'z') ∧
    (clientHandlerRead 0 (run 0 freshExample).reg 1 6 longRequest).2.1 =
      route (run 0 freshExample).reg 1 6 "Lahore".toList "EE".toList
        (List.replicate 1013 'z') ∧
    longRequest.drop 1023 = List.replicate 87 'z' ∧
    (clientHandlerRead 0 (run 0 freshExample).reg 1 6 (longRequest.drop 1023)).2.1 =
      [Ev.send 6 formatError] := by
  refine ⟨rfl, by decide, by decide, by decide, by decide, by decide, by decide⟩

/-- C10, amended: for request lines that are text (not empty, no NUL byte)
shorter than 1024 characters, so that one `read` of the reader delivers them
whole. Such a line other than `LIST_REQUEST` with fewer than two commas is
answered to the sender's own socket with the format-error text, as the only
action, and the registry is unchanged. Such a line `c,d,m` whose first two
fields are shorter than 40 characters is split at its first two commas into
target campus `c`, target department `d` and message `m`, the whole remainder
with any further commas, and these three are what the routing step receives. -/
theorem C10_routing_line_parsing (tz : Int) (reg : Registry) (index : Nat) (sock : Int) :
    (∀ data : List Char, data ≠ [] → (∀ x ∈ data, x ≠ NUL) → data.length < MAX_MSG →
      data ≠ "LIST_REQUEST".toList → data.count ',' < 2 →
      clientHandlerRead tz reg index sock data =
        (reg, [Ev.send sock "[SERVER] Error: Use format TargetCampus,Dept,Message".toList],
          false)) ∧
    (∀ c d m : CStr, ',' ∉ c → ',' ∉ d → c.length < MAX_NAME → d.length < MAX_NAME →
      (∀ x ∈ routingLine c d m, x ≠ NUL) → (routingLine c d m).length < MAX_MSG →
      parseRouting (cstrOfRead MAX_MSG (routingLine c d m)) = some (c, d, m) ∧
      clientHandlerRead tz reg index sock (routingLine c d m) =
        (reg, route reg index sock c d m, false)) := by
  constructor
  · intro data hne hnul hlen hlist hfew
    rw [clientHandlerRead_of_text tz reg index sock data hne hlen hnul]
    unfold clientHandlerLine
    rw [if_neg hlist, parseRouting_none_of_few_commas data hfew]
    rfl
  · intro c d m hcc hdc hc hd hnul hlen
    have hp := parseRouting_routingLine c d m hc hd hcc hdc
    refine ⟨?_, ?_⟩
    · rw [cstrOfRead_of_text MAX_MSG _ hlen hnul]
      exact hp
    · rw [clientHandlerRead_of_text tz reg index sock _ (routingLine_ne_nil c d m) hlen hnul]
      unfold clientHandlerLine
      rw [if_neg (routingLine_ne_listRequest c d m), hp]

/-- Witness for C10: a one-comma line, and a message that itself holds commas. -/
theorem C10_routing_line_parsing_witness :
    clientHandlerRead 0 (run 0 freshExample).reg 0 5 "Lahore,hello".toList =
      ((run 0 freshExample).reg,
        [Ev.send 5 "[SERVER] Error: Use format TargetCampus,Dept,Message".toList], false) ∧
    parseRouting (cstrOfRead MAX_MSG (routingLine "Lahore".toList "EE".toList "a,b,,c".toList)) =
      some ("Lahore".toList, "EE".toList, "a,b,,c".toList) :=
  ⟨(C10_routing_line_parsing 0 (run 0 freshExample).reg 0 5).1 "Lahore,hello".toList
      (by decide) (by decide) (by decide) (by decide) (by decide),
   ((C10_routing_line_parsing 0 (run 0 freshExample).reg 0 5).2 "Lahore".toList "EE".toList
      "a,b,,c".toList (by decide) (by decide) (by decide) (by decide) (by decide)
      (by decide)).1⟩

/-! ## C11: malformed handshake reply -/

theorem parseHandshake_none_of_few_colons (buf : CStr) (h : buf.count ':' < 2) :
    parseHandshake buf = none := by
  unfold parseHandshake
  cases h1 : strchr buf ':' with
  | none => rfl
  | some p1 =>
    simp only
    cases h2 : strchr (buf.drop (p1 + 1)) ':' with
    | none => rfl
    | some p2 =>
      exfalso
      obtain ⟨e1, -⟩ := strchr_some buf ':' p1 h1
      obtain ⟨e2, -⟩ := strchr_some _ ':' p2 h2
      rw [e1, List.count_append, List.count_cons_self, e2, List.count_append,
        List.count_cons_self] at h
      omega

/-- Every handshake line with fewer than two colons gets the first 35
characters of the `BAD_FORMAT` text, the connection is closed, nothing is
registered and no reader is started. -/
theorem handshake_of_few_colons (reg : Registry) (sock : Int) (buf : CStr)
    (h : buf.count ':' < 2) :
    handshake reg sock buf =
      (reg, [Ev.send sock "BAD_FORMAT: Use Campus:Dept:Passwor".toList, Ev.close sock], none) := by
  unfold handshake
  rw [parseHandshake_none_of_few_colons buf h]
  rfl

/-- C11 at its failing input: the handshake line `Lahore:NU-LHR-123` has one
colon. The connection is closed and nothing is registered, but the bytes sent
are `BAD_FORMAT: Use Campus:Dept:Passwor`, 35 characters: the text
`BAD_FORMAT: Use Campus:Dept:Password` has 36 and its last character is not
sent. -/
theorem C11_bad_format_reply_one_byte_short :
    "Lahore:NU-LHR-123".toList.count ':' < 2 ∧
    (handshake Registry.empty 4 "Lahore:NU-LHR-123".toList).2.1 =
      [Ev.send 4 "BAD_FORMAT: Use Campus:Dept:Passwor".toList, Ev.close 4] ∧
    (handshake Registry.empty 4 "Lahore:NU-LHR-123".toList).2.2 = none ∧
    (handshake Registry.empty 4 "Lahore:NU-LHR-123".toList).1.clientCount = 0 ∧
    "BAD_FORMAT: Use Campus:Dept:Passwor".toList.length = 35 ∧
    "BAD_FORMAT: Use Campus:Dept:Password".toList.length = 36 ∧
    sendsOf (handshake Registry.empty 4 "Lahore:NU-LHR-123".toList).2.1 ≠
      [(4, "BAD_FORMAT: Use Campus:Dept:Password".toList)] := by
  refine ⟨by decide, by decide, by decide, by decide, by decide, by decide, by decide⟩

/-! ## C12: removal and re-registration -/

theorem entries_length (reg : Registry) : (entries reg).length = reg.clientCount := by
  simp [entries]

theorem entries_getElem? (reg : Registry) (k : Nat) :
    (entries reg)[k]? = if k < reg.clientCount then some (slot reg k) else none := by
  unfold entries
  rw [List.getElem?_map]
  split_ifs with h
  · rw [List.getElem?_range h]; rfl
  · rw [List.getElem?_eq_none (by simpa using h)]; rfl

/-- The new slot of a successful handshake has `udpKnown = 0` and `lastSeen = 0`. -/
theorem handshake_new_slot (reg : Registry) (sock : Int) (buf : CStr) (idx : Nat)
    (h : (handshake reg sock buf).2.2 = some idx) :
    idx = reg.clientCount ∧ (handshake reg sock buf).1.clientCount = reg.clientCount + 1 ∧
      (handshake reg sock buf).1.tcpSockets idx = sock ∧
      (handshake reg sock buf).1.udpKnown idx = 0 ∧
      (handshake reg sock buf).1.lastSeen idx = 0 := by
  unfold handshake at h ⊢
  cases hp : parseHandshake buf with
  | none => simp [hp] at h
  | some r =>
    obtain ⟨campus, dept, pass⟩ := r
    simp only [hp] at h ⊢
    by_cases h1 : (!authenticate campus pass) = true
    · rw [if_pos h1] at h; cases h
    · rw [if_neg h1] at h ⊢
      by_cases h2 : reg.clientCount ≥ MAX_CLIENTS
      · rw [if_pos h2] at h; cases h
      · rw [if_neg h2] at h ⊢
        simp only [Option.some.injEq] at h
        subst h
        simp [register]

/-- C12: for a registry with `n = clientCount` and an index `i < n`, the
removal run for index `i` leaves `n - 1` registered slots, and these are the
original slots with the `i`-th one deleted: slot `k` holds what slot `k` held
for `k < i` and what slot `k + 1` held for `k >= i`, all six cells (socket,
campus, department, reply address, lastSeen, known flag) moving together, so
the survivors keep their order. A handshake that succeeds on any registry,
whatever its arrays hold at the slot it fills, starts that slot with
`udpKnown = 0` and `lastSeen = 0`, and the listing shows it as `never`. -/
theorem C12_removal_compacts_and_registration_resets (tz : Int) (reg : Registry) (i : Nat)
    (hi : i < reg.clientCount) :
    (removeClient reg i).clientCount = reg.clientCount - 1 ∧
    entries (removeClient reg i) = (entries reg).eraseIdx i ∧
    (∀ k, k < reg.clientCount - 1 →
      slot (removeClient reg i) k = slot reg (if k < i then k else k + 1)) ∧
    (∀ (r : Registry) (sock : Int) (buf : CStr) (idx : Nat),
      (handshake r sock buf).2.2 = some idx →
        idx = r.clientCount ∧
        (handshake r sock buf).1.udpKnown idx = 0 ∧
        (handshake r sock buf).1.lastSeen idx = 0 ∧
        tsbuf tz (handshake r sock buf).1 idx = "never".toList) := by
  have hslot : ∀ k, k < reg.clientCount - 1 →
      slot (removeClient reg i) k = slot reg (if k < i then k else k + 1) := by
    intro k hk
    rw [slot_removeClient]
    by_cases hki : k < i
    · have hn : ¬ (i ≤ k ∧ k < i + (reg.clientCount - 1 - i)) := by omega
      rw [if_neg hn, if_pos hki]
    · have hy : i ≤ k ∧ k < i + (reg.clientCount - 1 - i) := by omega
      rw [if_pos hy, if_neg hki]
  refine ⟨rfl, ?_, hslot, ?_⟩
  · apply List.ext_getElem?
    intro k
    rw [List.getElem?_eraseIdx, entries_getElem?, clientCount_removeClient]
    by_cases hk : k < reg.clientCount - 1
    · rw [if_pos hk, hslot k hk]
      by_cases hki : k < i
      · rw [if_pos hki, if_pos hki, entries_getElem?, if_pos (by omega)]
      · rw [if_neg hki, if_neg hki, entries_getElem?, if_pos (by omega)]
    · rw [if_neg hk]
      by_cases hki : k < i
      · omega
      · rw [if_neg hki, entries_getElem?, if_neg (by omega)]
  · intro r sock buf idx h
    obtain ⟨h1, -, -, h4, h5⟩ := handshake_new_slot r sock buf idx h
    refine ⟨h1, h4, h5, ?_⟩
    simp [tsbuf, h4]

/-- Witness for C12: the middle one of three live sessions is removed, then a
new session fills slot 2, whose cells still held a known reply address. -/
theorem C12_removal_compacts_and_registration_resets_witness :
    (removeClient (run 0 threeKnown).reg 1).clientCount = 2 ∧
    entries (removeClient (run 0 threeKnown).reg 1) =
      [(4, "Lahore".toList, "CS".toList, ⟨1, 7000⟩, 100, 1),
       (6, "Multan".toList, "CS".toList, ⟨3, 7000⟩, 300, 1)] ∧
    (removeClient (run 0 threeKnown).reg 1).udpKnown 2 = 1 ∧
    (handshake (removeClient (run 0 threeKnown).reg 1) 7 "CFD:CS:NU-CFD-123".toList).1.udpKnown 2
      = 0 ∧
    tsbuf 0 (handshake (removeClient (run 0 threeKnown).reg 1) 7 "CFD:CS:NU-CFD-123".toList).1 2
      = "never".toList := by
  have h := C12_removal_compacts_and_registration_resets 0 (run 0 threeKnown).reg 1 (by decide)
  have hnew := h.2.2.2 (removeClient (run 0 threeKnown).reg 1) 7 "CFD:CS:NU-CFD-123".toList 2
    (by decide)
  refine ⟨h.1, ?_, by decide, hnew.2.1, hnew.2.2.2⟩
  rw [h.2.1]
  decide

/-! ## C13: the lock and the sends -/

end NUServer
